import Mathlib

/-
Shallow embedding of the QuantuMotion physics/chemistry core.

Sources embedded:
  - src/unnamed/part_000            (types.ts: AtomData, BondData, PhotonData, SimulationState)
  - src/constants.ts                (physics constants, ATOM_CONFIGS, MOLECULE_TEMPLATES,
                                     createMoleculeFromTemplate)
  - src/components/Scene.tsx        (the per-tick useFrame loop; the file contains two
                                     concatenated variants of the same loop, embedded here
                                     as a single tick parameterised by a VariantCfg)

Numbers are modelled as exact rationals (the source runs on JS doubles; the spec treats
them as ideal reals).  The only irrational operations of the source are Math.sqrt
(vector lengths) and Math.pow(x, 1.2) (non-linear bond stiffness); both are supplied by
an ambient `Env` as functions on rationals, so every definition stays executable and the
structural theorems hold for every choice of those functions.  Each call to Math.random()
is modelled as reading a distinct position of an ambient random source, also in `Env`.
Rendering-only data (colors, orbitals, electrons) is opaque to the core and omitted.
-/

namespace QM

-- Batteries marks the rational-number operations irreducible; re-enable unfolding so
-- concrete states below can be evaluated by `decide`.
attribute [local semireducible] Rat.ofScientific Rat.add Rat.sub Rat.mul Rat.inv

/-- Three-component rational vector, modelling three.js `Vector3` under ideal arithmetic. -/
structure Vec3 where
  x : ℚ
  y : ℚ
  z : ℚ
deriving DecidableEq, Repr

namespace Vec3

def add (a b : Vec3) : Vec3 := ⟨a.x + b.x, a.y + b.y, a.z + b.z⟩

def sub (a b : Vec3) : Vec3 := ⟨a.x - b.x, a.y - b.y, a.z - b.z⟩

def neg (a : Vec3) : Vec3 := ⟨-a.x, -a.y, -a.z⟩

def smul (c : ℚ) (a : Vec3) : Vec3 := ⟨c * a.x, c * a.y, c * a.z⟩

/-- Squared Euclidean norm (`Vector3.lengthSq`). -/
def normSq (a : Vec3) : ℚ := a.x * a.x + a.y * a.y + a.z * a.z

/-- Cross product (`Vector3.crossVectors a b`). -/
def cross (a b : Vec3) : Vec3 :=
  ⟨a.y * b.z - a.z * b.y, a.z * b.x - a.x * b.z, a.x * b.y - a.y * b.x⟩

instance : Add Vec3 := ⟨add⟩
instance : Sub Vec3 := ⟨sub⟩
instance : Neg Vec3 := ⟨neg⟩
instance : SMul ℚ Vec3 := ⟨smul⟩
instance : Zero Vec3 := ⟨⟨0, 0, 0⟩⟩

@[simp] theorem add_def (a b : Vec3) : a + b = ⟨a.x + b.x, a.y + b.y, a.z + b.z⟩ := rfl
@[simp] theorem sub_def (a b : Vec3) : a - b = ⟨a.x - b.x, a.y - b.y, a.z - b.z⟩ := rfl
@[simp] theorem neg_def (a : Vec3) : -a = ⟨-a.x, -a.y, -a.z⟩ := rfl
@[simp] theorem smul_def (c : ℚ) (a : Vec3) : c • a = ⟨c * a.x, c * a.y, c * a.z⟩ := rfl
@[simp] theorem zero_def : (0 : Vec3) = ⟨0, 0, 0⟩ := rfl

end Vec3

/-- The thirteen element kinds of `AtomType` in types.ts. -/
inductive AtomType
  | H | He | Li | Be | C | N | O | F | Ne | Na | P | S | Cl
deriving DecidableEq, Repr

/-- The chemistry-relevant fields of one `ATOM_CONFIGS` entry (constants.ts).
Rendering-only fields (color, atomicNumber, valenceCount, orbitals) are omitted
as opaque to the core. -/
structure AtomConfig where
  mass : ℚ
  charge : ℚ
  radius : ℚ
  electronegativity : ℚ
  maxBonds : Nat
  meltingPoint : ℚ
  boilingPoint : ℚ
deriving DecidableEq, Repr

/-- `ATOM_CONFIGS` from constants.ts, restricted to the core fields. -/
def ATOM_CONFIGS : AtomType → AtomConfig
  | .H  => ⟨1,    1,  0.5,  2.20, 1, 0.5, 1.0⟩
  | .He => ⟨4,    0,  0.4,  0,    0, 0.1, 0.2⟩
  | .Li => ⟨7,    1,  1.2,  0.98, 1, 4.5, 8.0⟩
  | .Be => ⟨9,    2,  1.0,  1.57, 2, 6.0, 9.0⟩
  | .C  => ⟨12,   0,  0.9,  2.55, 4, 35.0, 48.0⟩
  | .N  => ⟨14,   -3, 0.85, 3.04, 4, 0.6, 0.7⟩
  | .O  => ⟨16,   -2, 0.8,  3.44, 2, 0.5, 0.9⟩
  | .F  => ⟨19,   -1, 0.7,  3.98, 1, 0.5, 0.8⟩
  | .Ne => ⟨20,   0,  0.6,  0,    0, 0.2, 0.3⟩
  | .Na => ⟨23,   1,  1.1,  0.93, 1, 3.7, 8.8⟩
  | .P  => ⟨31,   -3, 1.1,  2.19, 5, 3.1, 5.5⟩
  | .S  => ⟨32,   -2, 1.05, 2.58, 6, 3.8, 7.0⟩
  | .Cl => ⟨35.5, -1, 1.0,  3.16, 1, 1.7, 2.4⟩

-- Physics constants from constants.ts.
def K_COULOMB : ℚ := 350
def DAMPING : ℚ := 0.98
def LJ_EPSILON : ℚ := 5
def LJ_SIGMA_SCALE : ℚ := 0.85
def BOND_FORM_RADIUS : ℚ := 1.3
def CONTAINER_SIZE : ℚ := 25
def BOND_STRENGTH_COVALENT : ℚ := 1200
def BOND_STRENGTH_IONIC : ℚ := 800
/-- Source constant `BOND_BREAK_RATIO` (the break-ratio applied to the effective rest length). -/
def BOND_BREAK_LIMIT : ℚ := 2
def THERMAL_EXPANSION_COEFF : ℚ := 0.005

/-- `AtomData` (types.ts), restricted to the fields the tick loop reads or writes.
Ids are modelled as naturals (the source uses uuid strings; only distinctness matters). -/
structure Atom where
  id : Nat
  ty : AtomType
  position : Vec3
  velocity : Vec3
  mass : ℚ
  charge : ℚ
  radius : ℚ
  meltingPoint : ℚ
  boilingPoint : ℚ
deriving DecidableEq, Repr

inductive BondType
  | covalent | ionic | metallic
deriving DecidableEq, Repr

/-- `BondData` (types.ts). -/
structure Bond where
  id : Nat
  atomA : Nat
  atomB : Nat
  strength : ℚ
  restLength : ℚ
  order : Nat
  ty : BondType
deriving DecidableEq, Repr

/-- `PhotonData` (types.ts). -/
structure Photon where
  id : Nat
  position : Vec3
  velocity : Vec3
  energy : ℚ
deriving DecidableEq, Repr

/-- `SimulationState` (types.ts); `activeTool`/`funMode` UI fields are out of core scope. -/
structure SimulationState where
  atoms : List Atom
  bonds : List Bond
  photons : List Photon
  temperature : ℚ
  magneticField : Vec3
  isRunning : Bool
  timeScale : ℚ
  showFieldVectors : Bool
deriving DecidableEq, Repr

/-- Ambient environment for the tick: the two irrational scalar functions of the source
(Math.sqrt on squared norms, Math.pow(·, 1.2)) and the random draws, one stream per
call site, indexed so that every Math.random() call reads a distinct position. -/
structure Env where
  sqrt : ℚ → ℚ
  pow12 : ℚ → ℚ
  bondRollA : Nat → ℚ
  bondRollB : Nat → ℚ
  noiseV : Nat → Vec3
  spawnV : Nat → Vec3

/-- Length of a vector: `Vector3.length()` = sqrt of the squared norm. -/
def Env.len (env : Env) (v : Vec3) : ℚ := env.sqrt v.normSq

/-- three.js `Vector3.normalize()` divides by `length() || 1`, so a zero-length vector
is left unchanged. -/
def Env.normalize (env : Env) (v : Vec3) : Vec3 :=
  let l := env.len v
  if l = 0 then v else (1 / l) • v

/-- Force accumulator, modelling the id-keyed `Map<string, Vector3>` of the tick. -/
def Forces := Nat → Vec3

/-- `forces.get(id)!.add(v)` on the accumulator. -/
def addF (F : Forces) (i : Nat) (v : Vec3) : Forces :=
  fun k => if k = i then F k + v else F k

@[simp] theorem addF_same (F : Forces) (i : Nat) (v : Vec3) : addF F i v i = F i + v := by
  simp [addF]

theorem addF_other (F : Forces) (i k : Nat) (v : Vec3) (h : k ≠ i) : addF F i v k = F k := by
  simp [addF, h]

/-- `atoms.find(a => a.id === id)`. -/
def findAtom (atoms : List Atom) (aid : Nat) : Option Atom :=
  atoms.find? (fun a => a.id = aid)

/-- `bonds.some(b => (b.atomA === x && b.atomB === y) || (b.atomA === y && b.atomB === x))`. -/
def linksPair (b : Bond) (x y : Nat) : Bool :=
  (b.atomA = x ∧ b.atomB = y) ∨ (b.atomA = y ∧ b.atomB = x)

def isBondedPair (bonds : List Bond) (x y : Nat) : Bool :=
  bonds.any (fun b => linksPair b x y)

/-- Number of bonds incident to atom `aid`
(`bonds.filter(b => b.atomA === id || b.atomB === id).length`). -/
def bondCount (bonds : List Bond) (aid : Nat) : Nat :=
  (bonds.filter (fun b => b.atomA = aid ∨ b.atomB = aid)).length

/-! ### Force Integrator: pairwise physics loop (Scene.tsx, both variants identical) -/

/-- Separation `r = dir.length()` of a pair, where `dir = a1.position − a2.position`. -/
def pairR (env : Env) (a1 a2 : Atom) : ℚ :=
  env.len (a1.position - a2.position)

/-- Lennard-Jones 12-6 scalar term, added only for non-bonded pairs:
`(24 * LJ_EPSILON / r) * (2 * sr12 - sr6)` with `sigma = (r1 + r2) * LJ_SIGMA_SCALE`. -/
def ljMag (a1 a2 : Atom) (isBonded : Bool) (r : ℚ) : ℚ :=
  if isBonded then 0
  else
    let sigma := (a1.radius + a2.radius) * LJ_SIGMA_SCALE
    let sr := sigma / r
    let sr6 := sr ^ 6
    let sr12 := sr6 * sr6
    (24 * LJ_EPSILON / r) * (2 * sr12 - sr6)

/-- Coulomb scalar term `K_COULOMB * q1 * q2 / r²`, added when both charges are non-zero. -/
def coulMag (a1 a2 : Atom) (r : ℚ) : ℚ :=
  if a1.charge ≠ 0 ∧ a2.charge ≠ 0 then K_COULOMB * a1.charge * a2.charge / (r * r) else 0

/-- Intermolecular attraction `−15 / r²`, added for non-bonded pairs below the mean
boiling point and within the 4.0 cutoff. -/
def interMag (temp : ℚ) (a1 a2 : Atom) (isBonded : Bool) (r : ℚ) : ℚ :=
  let meanBP := (a1.boilingPoint + a2.boilingPoint) / 2
  if ¬ isBonded ∧ temp < meanBP ∧ r < 4 then -(15 / (r * r)) else 0

/-- Total scalar `forceMag` accumulated for one unordered pair of the physics loop. -/
def pairMag (env : Env) (temp : ℚ) (bonds : List Bond) (a1 a2 : Atom) : ℚ :=
  let r := pairR env a1 a2
  let isBonded := isBondedPair bonds a1.id a2.id
  ljMag a1 a2 isBonded r + coulMag a1 a2 r + interMag temp a1 a2 isBonded r

/-- The vector `fVec = dir.normalize() * forceMag` applied to `a1` for one pair
(`a2` receives its negation). -/
def pairVec (env : Env) (temp : ℚ) (bonds : List Bond) (a1 a2 : Atom) : Vec3 :=
  let dv := a1.position - a2.position
  let r := env.len dv
  let nd := if r = 0 then dv else (1 / r) • dv
  pairMag env temp bonds a1 a2 • nd

/-- One unordered-pair iteration of the physics loop: skip if `r < 0.1`, otherwise apply
`fVec = dir.normalize() * forceMag` to `a1` and its negation to `a2`. -/
def pairStep (env : Env) (temp : ℚ) (bonds : List Bond) (a1 a2 : Atom) (F : Forces) : Forces :=
  if pairR env a1 a2 < 0.1 then F
  else
    let fVec := pairVec env temp bonds a1 a2
    addF (addF F a1.id fVec) a2.id (-fVec)

/-- Lorentz force `F = charge * 2.0 * (v × B)`, applied when the field is non-zero and
the atom is charged. -/
def lorentzStep (B : Vec3) (a : Atom) (F : Forces) : Forces :=
  if 0 < B.normSq ∧ a.charge ≠ 0 then
    addF F a.id ((a.charge * 2) • Vec3.cross a.velocity B)
  else F

/-- Vortex tool force of the first variant (attraction plus tangential spiral), applied
per atom when the vortex position is active and the atom is farther than 1.0 from it. -/
def vortexStep (env : Env) (vp : Vec3) (a : Atom) (F : Forces) : Forces :=
  let dv := vp - a.position
  let dist := env.len dv
  if 1 < dist then
    let nd := if dist = 0 then dv else (1 / dist) • dv
    let tangent := (20 : ℚ) • (⟨-nd.y, nd.x, 0⟩ : Vec3)
    let attraction := (100 : ℚ) • nd
    addF F a.id (attraction + tangent)
  else F

/-- The nested `for i / for j > i` physics loop: Lorentz term for the head atom, then the
pairwise terms against every later atom, then recurse on the tail. -/
def pairLoop (env : Env) (temp : ℚ) (bonds : List Bond) (B : Vec3) :
    List Atom → Forces → Forces
  | [], F => F
  | a :: rest, F =>
      let F1 := lorentzStep B a F
      let F2 := rest.foldl (fun F b => pairStep env temp bonds a b F) F1
      pairLoop env temp bonds B rest F2

/-- The whole force phase: zero accumulator, optional vortex pass (first variant only;
the second variant has no vortex code, modelled by passing `none`), then the physics loop. -/
def forcePhase (env : Env) (vp : Option Vec3) (temp : ℚ) (B : Vec3)
    (atoms : List Atom) (bonds : List Bond) : Forces :=
  let F0 : Forces := fun _ => 0
  let F1 := match vp with
    | some p => atoms.foldl (fun F a => vortexStep env p a F) F0
    | none => F0
  pairLoop env temp bonds B atoms F1

/-! ### Bond Lifecycle Engine (the two variants differ; `VariantCfg` packages the
differences: thermal-dissociation rule, spring stiffness, formation rest lengths) -/

/-- The per-variant parameters of the tick loop. -/
structure VariantCfg where
  thermalBreak : Env → ℚ → Atom → Atom → Nat → Bond → Bool
  stiffness : Env → Bond → ℚ
  ionicRestMult : ℚ
  covRestMult : ℚ

/-- Thermal dissociation of the first variant: `bondEnergy = strength * order`,
`thermalEnergy = temp * 150`; if `thermalEnergy > bondEnergy * 0.8`, break when the
random roll is below `(thermalEnergy - bondEnergy * 0.8) * 0.00005`. -/
def thermalBreak1 (env : Env) (temp : ℚ) (_ _ : Atom) (i : Nat) (b : Bond) : Bool :=
  let bondEnergy := b.strength * (b.order : ℚ)
  let thermalEnergy := temp * 150
  if bondEnergy * 0.8 < thermalEnergy then
    if env.bondRollA i < (thermalEnergy - bondEnergy * 0.8) * 0.00005 then true else false
  else false

/-- Thermal dissociation of the second variant: ionic bonds above the mean melting
point + 0.5 break with probability 0.05; any bond above the plasma threshold 20.0
breaks with probability 0.01. -/
def thermalBreak2 (env : Env) (temp : ℚ) (a1 a2 : Atom) (i : Nat) (b : Bond) : Bool :=
  let meanMP := (a1.meltingPoint + a2.meltingPoint) / 2
  if b.ty = BondType.ionic ∧ meanMP + 0.5 < temp ∧ env.bondRollA i < 0.05 then true
  else if 20 < temp ∧ env.bondRollB i < 0.01 then true
  else false

/-- First-variant spring stiffness `strength * Math.pow(order, 1.2)`. -/
def stiffness1 (env : Env) (b : Bond) : ℚ := b.strength * env.pow12 (b.order : ℚ)

/-- Second-variant spring stiffness: just `strength`. -/
def stiffness2 (_ : Env) (b : Bond) : ℚ := b.strength

/-- Effective rest length `restLength * (1 + temp * THERMAL_EXPANSION_COEFF)`. -/
def effRest (temp : ℚ) (b : Bond) : ℚ :=
  b.restLength * (1 + temp * THERMAL_EXPANSION_COEFF)

/-- The spring-force vector of a surviving bond: direction `a2 − a1` normalised,
displacement `dist − effectiveRestLength`, magnitude `stiffness * displacement`. -/
def springVec (cfg : VariantCfg) (env : Env) (temp : ℚ) (a1 a2 : Atom) (b : Bond) : Vec3 :=
  let dist := env.len (a1.position - a2.position)
  let dv := a2.position - a1.position
  let l := env.len dv
  let nd := if l = 0 then dv else (1 / l) • dv
  let displacement := dist - effRest temp b
  (cfg.stiffness env b * displacement) • nd

/-- Spring-force update of a surviving bond: the spring vector applied to `a1` and
negated on `a2`. -/
def springUpdate (cfg : VariantCfg) (env : Env) (temp : ℚ) (a1 a2 : Atom) (b : Bond)
    (F : Forces) : Forces :=
  let springForce := springVec cfg env temp a1 a2 b
  addF (addF F a1.id springForce) a2.id (-springForce)

/-- Body of the `bonds.filter` survival test: `none` when the bond is dropped (stale
endpoint, mechanical snap, or thermal dissociation), otherwise the spring-force update
it performs on the accumulator.  `i` is the bond's index in the input list, used to
address its random rolls. -/
def evalBond (cfg : VariantCfg) (env : Env) (temp : ℚ) (atoms : List Atom)
    (i : Nat) (b : Bond) : Option (Forces → Forces) :=
  match findAtom atoms b.atomA, findAtom atoms b.atomB with
  | some a1, some a2 =>
      let dist := env.len (a1.position - a2.position)
      if effRest temp b * BOND_BREAK_LIMIT < dist then none
      else if cfg.thermalBreak env temp a1 a2 i b then none
      else some (springUpdate cfg env temp a1 a2 b)
  | _, _ => none

/-- One step of the bond survival filter over `(kept bonds, accumulator)`. -/
def bondStep (cfg : VariantCfg) (env : Env) (temp : ℚ) (atoms : List Atom) :
    List Bond × Forces → Nat × Bond → List Bond × Forces
  | (kept, F), (i, b) =>
    match evalBond cfg env temp atoms i b with
    | some upd => (kept ++ [b], upd F)
    | none => (kept, F)

/-- The `activeBonds` filter with its accumulated spring forces. -/
def bondPhase (cfg : VariantCfg) (env : Env) (temp : ℚ) (atoms : List Atom)
    (bonds : List Bond) (F : Forces) : List Bond × Forces :=
  bonds.enum.foldl (bondStep cfg env temp atoms) ([], F)

/-! ### Chemistry (Bond Formation) Engine -/

/-- Overwrite the charge of the atom at list index `i` (in-place mutation of the shared
atom array in the source). -/
def setCharge (atoms : List Atom) (i : Nat) (c : ℚ) : List Atom :=
  match atoms[i]? with
  | some a => atoms.set i { a with charge := c }
  | none => atoms

/-- All unordered index pairs `(i, j)` with `i < j < n`, in the row-major order of the
source's nested loops. -/
def pairIdx (n : Nat) : List (Nat × Nat) :=
  (List.range n).flatMap (fun i => ((List.range n).drop (i + 1)).map (fun j => (i, j)))

/-- One pair iteration of the chemistry scan.  Guards in source order: inert atoms
(maxBonds 0), valence saturation against the current bond list, an existing bond for the
pair, and the formation radius; then the ionic/covalent classification by Δ(EN) and
temperature.  New bond ids are allocated from the fresh-id counter (source: uuid). -/
def chemPair (cfg : VariantCfg) (env : Env) (temp : ℚ) :
    List Atom × List Bond × Nat → Nat × Nat → List Atom × List Bond × Nat
  | (atoms, newBonds, nid), (i, j) =>
  match atoms[i]?, atoms[j]? with
  | some a1, some a2 =>
      let configA := ATOM_CONFIGS a1.ty
      let configB := ATOM_CONFIGS a2.ty
      if configA.maxBonds = 0 ∨ configB.maxBonds = 0 then (atoms, newBonds, nid)
      else
        let currentBondsA := bondCount newBonds a1.id
        let currentBondsB := bondCount newBonds a2.id
        if configA.maxBonds ≤ currentBondsA ∨ configB.maxBonds ≤ currentBondsB then (atoms, newBonds, nid)
        else
          let existingBond := isBondedPair newBonds a1.id a2.id
          let dist := env.len (a1.position - a2.position)
          let formDist := (a1.radius + a2.radius) * BOND_FORM_RADIUS
          if ¬ existingBond ∧ dist < formDist then
            let meanMP := (a1.meltingPoint + a2.meltingPoint) / 2
            let deltaEN := |configA.electronegativity - configB.electronegativity|
            let isIonic := decide (1.7 < deltaEN)
            let radiusSum := a1.radius + a2.radius
            if isIonic ∧ temp < meanMP then
              let donorIdx := if configA.electronegativity < configB.electronegativity
                then i else j
              let accIdx := if configA.electronegativity < configB.electronegativity
                then j else i
              let atoms' := setCharge (setCharge atoms donorIdx 1) accIdx (-1)
              (atoms', newBonds ++ [⟨nid, a1.id, a2.id, BOND_STRENGTH_IONIC,
                radiusSum * cfg.ionicRestMult, 1, BondType.ionic⟩], nid + 1)
            else if ¬ isIonic ∧ temp < meanMP * 1.5 then
              (atoms, newBonds ++ [⟨nid, a1.id, a2.id, BOND_STRENGTH_COVALENT,
                radiusSum * cfg.covRestMult, 1, BondType.covalent⟩], nid + 1)
            else (atoms, newBonds, nid)
          else (atoms, newBonds, nid)
  | _, _ => (atoms, newBonds, nid)

/-- One firing of the chemistry engine: the nested scan over all unordered pairs,
threading the (shared, in-place mutated) atom array, the bond list and the fresh-id
counter. -/
def chemPhase (cfg : VariantCfg) (env : Env) (temp : ℚ)
    (atoms : List Atom) (bonds : List Bond) (nid : Nat) : List Atom × List Bond × Nat :=
  (pairIdx atoms.length).foldl (chemPair cfg env temp) (atoms, bonds, nid)

/-- The cooldown gate around the chemistry engine: decrement by `dt`; at or below zero,
reset to 0.2 and fire the scan. -/
def chemGate (cfg : VariantCfg) (env : Env) (temp dt : ℚ) (cool : ℚ)
    (atoms : List Atom) (bonds : List Bond) (nid : Nat) :
    (List Atom × List Bond × Nat) × ℚ :=
  let cool' := cool - dt
  if cool' ≤ 0 then (chemPhase cfg env temp atoms bonds nid, 0.2)
  else ((atoms, bonds, nid), cool')

/-! ### Photon-Bond Interaction -/

/-- Hit test of one bond against an advanced photon position: both endpoints must
exist and the photon must be within 0.8 of the bond midpoint. -/
def hitCheck (env : Env) (atoms : List Atom) (pos : Vec3) (b : Bond) :
    Option (Bond × Atom × Atom) :=
  match findAtom atoms b.atomA, findAtom atoms b.atomB with
  | some a1, some a2 =>
      let center := (0.5 : ℚ) • (a1.position + a2.position)
      if env.len (pos - center) < 0.8 then some (b, a1, a2) else none
  | _, _ => none

/-- First bond (in list order) struck by the photon, mirroring the `for ... break` loop. -/
def firstHit (env : Env) (atoms : List Atom) (bonds : List Bond) (pos : Vec3) :
    Option (Bond × Atom × Atom) :=
  bonds.findSome? (hitCheck env atoms pos)

/-- Impulse applied when a photon splits a bond.  The source scales the shared
`splitDir` vector in place twice, so atom B receives the direction scaled by
`energy` squared, not the negation of atom A's impulse. -/
def photonImpulse (env : Env) (a1 a2 : Atom) (p : Photon) (F : Forces) : Forces :=
  let splitDir := env.normalize (a1.position - a2.position)
  let energy := p.energy * 500
  addF (addF F a1.id (energy • splitDir)) a2.id (-(energy • (energy • splitDir)))

/-- Processing of one photon: advance by `velocity * dt * 15`, strike the first bond
within 0.8 of a midpoint (removing it by id and applying the impulse), otherwise
survive only while within 60 of the origin. -/
def photonStep (env : Env) (atoms : List Atom) (dt : ℚ) :
    List Bond × List Photon × Forces → Photon → List Bond × List Photon × Forces
  | (bonds, surv, F), p =>
  let p' := { p with position := p.position + (dt * 15) • p.velocity }
  match firstHit env atoms bonds p'.position with
  | some (b, a1, a2) =>
      (bonds.filter (fun x => x.id ≠ b.id), surv, photonImpulse env a1 a2 p' F)
  | none =>
      if env.len p'.position < 60 then (bonds, surv ++ [p'], F) else (bonds, surv, F)

/-- The photon loop over all photons of the tick. -/
def photonPhase (env : Env) (atoms : List Atom) (dt : ℚ) (bonds : List Bond)
    (photons : List Photon) (F : Forces) : List Bond × List Photon × Forces :=
  photons.foldl (photonStep env atoms dt) (bonds, [], F)

/-! ### Integration / Boundary Step -/

/-- Math.sign. -/
def qsign (q : ℚ) : ℚ := if 0 < q then 1 else if q < 0 then -1 else 0

/-- Phase-dependent damping: solid 0.90 below melting, gas 0.99 above boiling,
otherwise the liquid default `DAMPING`. -/
def effDamping (temp : ℚ) (a : Atom) : ℚ :=
  if temp < a.meltingPoint then 0.90 else if a.boilingPoint < temp then 0.99 else DAMPING

/-- Phase-dependent thermal-noise scale: 5 / 30 / 15 for solid / gas / liquid. -/
def noiseScale (temp : ℚ) (a : Atom) : ℚ :=
  if temp < a.meltingPoint then 5 else if a.boilingPoint < temp then 30 else 15

/-- Velocity after force, thermal noise, acceleration and damping
(semi-implicit Euler step of the source, before the position update).
`env.noiseV i` models the raw `(random()-0.5, random()-0.5, random()-0.5)` triple
of atom index `i`. -/
def dampedVel (env : Env) (temp dt : ℚ) (F : Forces) (i : Nat) (a : Atom) : Vec3 :=
  let noise := (temp * noiseScale temp a) • env.normalize (env.noiseV i)
  let f := F a.id + noise
  let accel := (1 / a.mass) • f
  effDamping temp a • (a.velocity + dt • accel)

/-- Integrated position before the boundary clamp. -/
def rawPos (env : Env) (temp dt : ℚ) (F : Forces) (i : Nat) (a : Atom) : Vec3 :=
  a.position + dt • dampedVel env temp dt F i a

/-- Reflecting boundary for one axis: clamp to ± CONTAINER_SIZE and scale the
velocity component by −0.5 when the position exceeds the half-extent. -/
def clampAxis (p v : ℚ) : ℚ × ℚ :=
  if CONTAINER_SIZE < |p| then (qsign p * CONTAINER_SIZE, v * (-0.5)) else (p, v)

/-- Full kinematic update of one atom (index `i` in the atom array). -/
def integrateAtom (env : Env) (temp dt : ℚ) (F : Forces) (i : Nat) (a : Atom) : Atom :=
  let v := dampedVel env temp dt F i a
  let p := rawPos env temp dt F i a
  let cx := clampAxis p.x v.x
  let cy := clampAxis p.y v.y
  let cz := clampAxis p.z v.z
  { a with position := ⟨cx.1, cy.1, cz.1⟩, velocity := ⟨cx.2, cy.2, cz.2⟩ }

/-- The integration pass over all atoms. -/
def integrate (env : Env) (temp dt : ℚ) (F : Forces) (atoms : List Atom) : List Atom :=
  atoms.enum.map (fun ia => integrateAtom env temp dt F ia.1 ia.2)

/-! ### The full tick -/

/-- The clamped, time-scaled frame delta `min(delta, 0.05) * timeScale`. -/
def tickDt (st : SimulationState) (delta : ℚ) : ℚ := min delta 0.05 * st.timeScale

/-- The survival filter of one tick: `activeBonds` with the force accumulator after
the force phase and the spring forces. -/
def tickAB (cfg : VariantCfg) (env : Env) (vp : Option Vec3) (st : SimulationState) :
    List Bond × Forces :=
  bondPhase cfg env st.temperature st.atoms st.bonds
    (forcePhase env vp st.temperature st.magneticField st.atoms st.bonds)

/-- The chemistry gate of one tick: updated atoms (charges), bond list and fresh-id
counter, plus the new cooldown. -/
def tickCG (cfg : VariantCfg) (env : Env) (vp : Option Vec3) (st : SimulationState)
    (cool : ℚ) (nid : Nat) (delta : ℚ) : (List Atom × List Bond × Nat) × ℚ :=
  chemGate cfg env st.temperature (tickDt st delta) cool st.atoms
    (tickAB cfg env vp st).1 nid

/-- The photon pass of one tick: the working surviving-bond list (what the source
calls `newBonds` at commit time), the surviving photons and the final accumulator. -/
def tickPH (cfg : VariantCfg) (env : Env) (vp : Option Vec3) (st : SimulationState)
    (cool : ℚ) (nid : Nat) (delta : ℚ) : List Bond × List Photon × Forces :=
  photonPhase env (tickCG cfg env vp st cool nid delta).1.1 (tickDt st delta)
    (tickCG cfg env vp st cool nid delta).1.2.1 st.photons
    (tickAB cfg env vp st).2

/-- One tick of the simulation loop (`useFrame` body), returning the committed state
with the updated chemistry cooldown and fresh-id counter.  The source commits through
`setSimulationState` only when
`activeBonds.length !== newBonds.length || survivingPhotons.length !== photons.length
|| structureChanged`; otherwise it writes back only the photon list, and since the atom
array was mutated in place the new kinematics are visible either way, while the stale
input bond list is kept — bonds dropped solely by the survival filter do not reach the
committed state in that tick.  The source sets `structureChanged` exactly when the
chemistry scan pushes a bond or a photon strike removes one; every chemistry push also
advances the fresh-id counter by one, and every strike strictly shrinks the bond list,
which nothing else between the chemistry scan and the commit modifies, so the flag is
expressed below by those two observations.  When the run flag is false the tick is a
no-op gate. -/
def tick (cfg : VariantCfg) (env : Env) (vp : Option Vec3) (st : SimulationState)
    (cool : ℚ) (nid : Nat) (delta : ℚ) : SimulationState × ℚ × Nat :=
  if st.isRunning then
    let ab := tickAB cfg env vp st
    let cg := tickCG cfg env vp st cool nid delta
    let ph := tickPH cfg env vp st cool nid delta
    let atoms2 := integrate env st.temperature (tickDt st delta) ph.2.2 cg.1.1
    let structureChanged := cg.1.2.2 ≠ nid ∨ ph.1.length ≠ cg.1.2.1.length
    if ab.1.length ≠ ph.1.length ∨ ph.2.1.length ≠ st.photons.length ∨ structureChanged
    then ({ st with atoms := atoms2, bonds := ph.1, photons := ph.2.1 }, cg.2, cg.1.2.2)
    else ({ st with atoms := atoms2, photons := ph.2.1 }, cg.2, cg.1.2.2)
  else (st, cool, nid)

/-- First variant of the per-tick loop (Scene.tsx lines 665-860): probabilistic
thermal dissociation from bond energy, non-linear stiffness, formation rest lengths
0.75 × radius sum for both ionic and covalent bonds. -/
def cfg1 : VariantCfg :=
  { thermalBreak := thermalBreak1, stiffness := stiffness1,
    ionicRestMult := 0.75, covRestMult := 0.75 }

/-- Second variant of the per-tick loop (Scene.tsx lines 1648-1883): melting-point /
plasma-threshold dissociation, linear stiffness, formation rest lengths 1.0 (ionic)
and 0.9 (covalent) × radius sum. -/
def cfg2 : VariantCfg :=
  { thermalBreak := thermalBreak2, stiffness := stiffness2,
    ionicRestMult := 1, covRestMult := 0.9 }

def tick1 (env : Env) (vp : Option Vec3) (st : SimulationState) (cool : ℚ) (nid : Nat)
    (delta : ℚ) : SimulationState × ℚ × Nat :=
  tick cfg1 env vp st cool nid delta

/-- The second variant has no vortex-tool pass. -/
def tick2 (env : Env) (st : SimulationState) (cool : ℚ) (nid : Nat)
    (delta : ℚ) : SimulationState × ℚ × Nat :=
  tick cfg2 env none st cool nid delta

/-! ### Molecule templates and spawning (constants.ts) -/

structure TemplateAtom where
  ty : AtomType
  offset : Vec3
deriving DecidableEq, Repr

structure TemplateBond where
  idxA : Nat
  idxB : Nat
  ty : BondType
  order : Nat
deriving DecidableEq, Repr

structure MoleculeTemplate where
  atoms : List TemplateAtom
  bonds : List TemplateBond
deriving DecidableEq, Repr

/-- `MOLECULE_TEMPLATES['salt']`: a 6-atom NaCl lattice fragment with six ionic bonds. -/
def saltTemplate : MoleculeTemplate :=
  { atoms := [⟨.Na, ⟨0, 0, 0⟩⟩, ⟨.Cl, ⟨1.6, 0, 0⟩⟩, ⟨.Na, ⟨0, 1.6, 0⟩⟩,
              ⟨.Cl, ⟨1.6, 1.6, 0⟩⟩, ⟨.Na, ⟨1.6, 0, 1.6⟩⟩, ⟨.Cl, ⟨0, 0, 1.6⟩⟩],
    bonds := [⟨0, 1, .ionic, 1⟩, ⟨2, 3, .ionic, 1⟩, ⟨0, 2, .ionic, 1⟩,
              ⟨1, 3, .ionic, 1⟩, ⟨0, 5, .ionic, 1⟩, ⟨1, 4, .ionic, 1⟩] }

/-- Bond-creation fold of `createMoleculeFromTemplate`: overwrite Na/Cl charges for
ionic template bonds, then push a bond whose rest length is the radius sum times the
order-dependent multiplier (0.75 / 0.65 / 0.60).  Template indices are valid for the
shipped templates; an out-of-range index leaves the state unchanged (the source would
fault there, which no shipped template does). -/
def templateBondStep :
    List Atom × List Bond × Nat → TemplateBond → List Atom × List Bond × Nat
  | (atoms, bonds, k), tb =>
  match atoms[tb.idxA]?, atoms[tb.idxB]? with
  | some a1, some a2 =>
      let atoms' := if tb.ty = BondType.ionic ∧ a1.ty = AtomType.Na ∧ a2.ty = AtomType.Cl
        then setCharge (setCharge atoms tb.idxA 1) tb.idxB (-1) else atoms
      let radiusSum := a1.radius + a2.radius
      let lengthMult : ℚ := if tb.order = 2 then 0.65 else if tb.order = 3 then 0.60 else 0.75
      (atoms', bonds ++ [⟨k, a1.id, a2.id,
        (if tb.ty = BondType.ionic then BOND_STRENGTH_IONIC else BOND_STRENGTH_COVALENT),
        radiusSum * lengthMult, tb.order, tb.ty⟩], k + 1)
  | _, _ => (atoms, bonds, k)

/-- `createMoleculeFromTemplate`: atoms spawned at `position + offset` with the config
fields spread in (`env.spawnV i` models the random velocity jitter triple, scaled by
0.2), then the template bonds.  Atom ids are `baseId + index` and bond ids follow
(source: uuid; only freshness and distinctness matter). -/
def createMolecule (env : Env) (tmpl : MoleculeTemplate) (position : Vec3)
    (baseId : Nat) : List Atom × List Bond :=
  let atoms := tmpl.atoms.enum.map (fun ita =>
    let cfg := ATOM_CONFIGS ita.2.ty
    { id := baseId + ita.1, ty := ita.2.ty,
      position := position + ita.2.offset,
      velocity := (0.2 : ℚ) • env.spawnV ita.1,
      mass := cfg.mass, charge := cfg.charge, radius := cfg.radius,
      meltingPoint := cfg.meltingPoint, boilingPoint := cfg.boilingPoint : Atom })
  let s := tmpl.bonds.foldl templateBondStep (atoms, [], baseId + tmpl.atoms.length)
  (s.1, s.2.1)

/-! ### Global invariants -/

/-- The valence invariant of the spec: every atom's incident bond count is at most its
valence capacity `maxBonds`. -/
def ValenceInv (atoms : List Atom) (bonds : List Bond) : Prop :=
  ∀ a ∈ atoms, bondCount bonds a.id ≤ (ATOM_CONFIGS a.ty).maxBonds

instance (atoms : List Atom) (bonds : List Bond) : Decidable (ValenceInv atoms bonds) :=
  List.decidableBAll _ atoms

/-! ### Concrete instances used by witnesses and counterexamples.
`env0.sqrt` is an executable floor square root, exact on every squared length appearing
below (all chosen configurations are axis-aligned with perfect-square squared
distances), so the evaluations agree with the ideal real-sqrt semantics of the source. -/

/-- Integer Newton iteration with explicit fuel; starting from a guess at or above
the root, the iterate strictly decreases, so fuel `n` is never exhausted. -/
def isqrtGo : Nat → Nat → Nat → Nat
  | 0, _, guess => guess
  | fuel + 1, n, guess =>
      let next := (guess + n / guess) / 2
      if next < guess then isqrtGo fuel n next else guess

/-- Kernel-evaluable floor square root on naturals. -/
def natSqrtE (n : Nat) : Nat := if n ≤ 1 then n else isqrtGo n n n

/-- Floor square root on rationals, exact whenever the reduced numerator and
denominator are perfect squares — which holds for every length computed below. -/
def ratSqrtE (q : ℚ) : ℚ := (natSqrtE q.num.toNat : ℚ) / (natSqrtE q.den : ℚ)

def env0 : Env :=
  { sqrt := ratSqrtE, pow12 := fun q => q, bondRollA := fun _ => 0.001,
    bondRollB := fun _ => 1, noiseV := fun _ => 0, spawnV := fun _ => 0 }

/-- A sodium atom as spawned from `ATOM_CONFIGS` (charge field left neutral). -/
def na0 : Atom :=
  { id := 0, ty := .Na, position := ⟨0, 0, 0⟩, velocity := 0, mass := 23, charge := 0,
    radius := 1.1, meltingPoint := 3.7, boilingPoint := 8.8 }

/-- A chlorine atom 1.5 away from `na0`. -/
def cl0 : Atom :=
  { id := 1, ty := .Cl, position := ⟨1.5, 0, 0⟩, velocity := 0, mass := 35.5, charge := 0,
    radius := 1.0, meltingPoint := 1.7, boilingPoint := 2.4 }

/-- Three-atom row Cl–Na–Cl used to exhibit formation interference. -/
def clA : Atom := { cl0 with id := 10, position := ⟨0, 0, 0⟩ }
def naB : Atom := { na0 with id := 11, position := ⟨1.5, 0, 0⟩ }
def clB : Atom := { cl0 with id := 12, position := ⟨3, 0, 0⟩ }

/-- Two carbon atoms 1.5 apart joined by a single covalent bond. -/
def cAtom1 : Atom :=
  { id := 20, ty := .C, position := ⟨0, 0, 0⟩, velocity := 0, mass := 12, charge := 0,
    radius := 0.9, meltingPoint := 35, boilingPoint := 48 }
def cAtom2 : Atom := { cAtom1 with id := 21, position := ⟨1.5, 0, 0⟩ }
def covB : Bond :=
  { id := 5, atomA := 20, atomB := 21, strength := 1200, restLength := 1.5, order := 1,
    ty := .covalent }

/-- Carbon pair state at temperature 10 with the covalent bond. -/
def stC : SimulationState :=
  { atoms := [cAtom1, cAtom2], bonds := [covB], photons := [], temperature := 10,
    magneticField := 0, isRunning := true, timeScale := 1, showFieldVectors := false }

/-- Hydrogen ions at unit separation with charges +1 / −1. -/
def hPlus : Atom :=
  { id := 30, ty := .H, position := ⟨0, 0, 0⟩, velocity := 0, mass := 1, charge := 1,
    radius := 0.5, meltingPoint := 0.5, boilingPoint := 1 }
def hMinus : Atom := { hPlus with id := 31, position := ⟨1, 0, 0⟩, charge := -1 }

/-- A photon one unit above the carbon bond's midpoint, flying straight at it. -/
def phot0 : Photon :=
  { id := 40, position := ⟨0.75, 1, 0⟩, velocity := ⟨0, -1, 0⟩, energy := 2 }

/-! ### Helper lemmas -/

theorem Vec3.add_sub_cancel_left' (x v : Vec3) : (x + v) - x = v := by
  cases x; cases v; simp

theorem Vec3.neg_neg' (v : Vec3) : -(-v) = v := by
  cases v; simp

theorem Vec3.sub_self' (x : Vec3) : x - x = 0 := by
  cases x; simp

theorem Vec3.neg_zero' : -(0 : Vec3) = 0 := by
  simp

theorem Vec3.add_neg_eq_sub (x v : Vec3) : x + -v = x - v := by
  cases x; cases v; simp [sub_eq_add_neg]

/-! ### C10: the tick commit changes only the atom/bond/photon collections -/

/-- C10: for every input state and every frame delta, the state committed at the end of
a tick (either variant, running or paused) leaves the temperature, magnetic field,
time scale, run flag and field-vector flag of `SimulationState` unchanged. -/
theorem tick_frame_effect (cfg : VariantCfg) (env : Env) (vp : Option Vec3)
    (st : SimulationState) (cool : ℚ) (nid : Nat) (delta : ℚ) :
    (tick cfg env vp st cool nid delta).1.temperature = st.temperature ∧
    (tick cfg env vp st cool nid delta).1.magneticField = st.magneticField ∧
    (tick cfg env vp st cool nid delta).1.timeScale = st.timeScale ∧
    (tick cfg env vp st cool nid delta).1.isRunning = st.isRunning ∧
    (tick cfg env vp st cool nid delta).1.showFieldVectors = st.showFieldVectors := by
  unfold tick
  by_cases h : st.isRunning
  · rw [h]
    simp only [if_true]
    refine ⟨?_, ?_, ?_, ?_, ?_⟩ <;> split <;> rfl
  · simp [h]

/-! ### C9: boundary reflection -/

/-- C9: for every atom and every axis, when the integrated (pre-clamp) position
component exceeds the container half-extent in absolute value, the committed position
component is exactly the half-extent with the original sign, and the committed velocity
component is −0.5 times its pre-clamp value. -/
theorem boundary_reflection (env : Env) (temp dt : ℚ) (F : Forces) (i : Nat) (a : Atom) :
    (CONTAINER_SIZE < |(rawPos env temp dt F i a).x| →
      (integrateAtom env temp dt F i a).position.x
          = qsign (rawPos env temp dt F i a).x * CONTAINER_SIZE ∧
      (integrateAtom env temp dt F i a).velocity.x
          = (dampedVel env temp dt F i a).x * (-0.5)) ∧
    (CONTAINER_SIZE < |(rawPos env temp dt F i a).y| →
      (integrateAtom env temp dt F i a).position.y
          = qsign (rawPos env temp dt F i a).y * CONTAINER_SIZE ∧
      (integrateAtom env temp dt F i a).velocity.y
          = (dampedVel env temp dt F i a).y * (-0.5)) ∧
    (CONTAINER_SIZE < |(rawPos env temp dt F i a).z| →
      (integrateAtom env temp dt F i a).position.z
          = qsign (rawPos env temp dt F i a).z * CONTAINER_SIZE ∧
      (integrateAtom env temp dt F i a).velocity.z
          = (dampedVel env temp dt F i a).z * (-0.5)) := by
  unfold integrateAtom clampAxis
  refine ⟨fun h => ?_, fun h => ?_, fun h => ?_⟩ <;> simp [h]

/-- Witness for C9: a lone atom at the origin moving fast along +x overshoots the wall
and is clamped to x = 25 with its x-velocity halved and reversed. -/
def fastAtom : Atom := { cAtom1 with id := 50, velocity := ⟨3000, 0, 0⟩ }

theorem boundary_reflection_witness :
    CONTAINER_SIZE < |(rawPos env0 10 0.05 (fun _ => 0) 0 fastAtom).x| ∧
    (integrateAtom env0 10 0.05 (fun _ => 0) 0 fastAtom).position.x
        = qsign (rawPos env0 10 0.05 (fun _ => 0) 0 fastAtom).x * CONTAINER_SIZE ∧
    (integrateAtom env0 10 0.05 (fun _ => 0) 0 fastAtom).velocity.x
        = (dampedVel env0 10 0.05 (fun _ => 0) 0 fastAtom).x * (-0.5) := by
  refine ⟨by decide, (boundary_reflection env0 10 0.05 (fun _ => 0) 0 fastAtom).1 (by decide)⟩

/-! ### C6: Newton's third law for the four pairwise force terms -/

/-- C6: for every pairwise force application of a tick — the combined
Lennard-Jones + Coulomb + intermolecular vector of the physics loop, and the bond
spring force (either variant's stiffness) — the vector added to atom A is the negation
of the vector added to atom B, and no other atom's accumulator entry changes. -/
theorem newton_third_law (cfg : VariantCfg) (env : Env) (temp : ℚ) (bonds : List Bond)
    (a1 a2 : Atom) (b : Bond) (F G : Forces) (h : a1.id ≠ a2.id) :
    (pairStep env temp bonds a1 a2 F) a1.id - F a1.id
        = -((pairStep env temp bonds a1 a2 F) a2.id - F a2.id) ∧
    (∀ k, k ≠ a1.id → k ≠ a2.id → (pairStep env temp bonds a1 a2 F) k = F k) ∧
    (¬ pairR env a1 a2 < 0.1 →
      (pairStep env temp bonds a1 a2 F) a1.id = F a1.id + pairVec env temp bonds a1 a2 ∧
      (pairStep env temp bonds a1 a2 F) a2.id = F a2.id - pairVec env temp bonds a1 a2) ∧
    (springUpdate cfg env temp a1 a2 b G) a1.id - G a1.id
        = -((springUpdate cfg env temp a1 a2 b G) a2.id - G a2.id) ∧
    (springUpdate cfg env temp a1 a2 b G) a1.id = G a1.id + springVec cfg env temp a1 a2 b ∧
    (springUpdate cfg env temp a1 a2 b G) a2.id = G a2.id - springVec cfg env temp a1 a2 b ∧
    (∀ k, k ≠ a1.id → k ≠ a2.id → (springUpdate cfg env temp a1 a2 b G) k = G k) := by
  unfold pairStep springUpdate
  have hne : ¬ a2.id = a1.id := fun hx => h hx.symm
  refine ⟨?_, ?_, ?_, ?_, ?_, ?_, ?_⟩
  · by_cases hr : pairR env a1 a2 < 0.1
    · simp [hr, Vec3.sub_self', Vec3.neg_zero']
    · simp [hr, addF, h, hne, Vec3.add_sub_cancel_left', Vec3.neg_neg']
  · intro k hk1 hk2
    by_cases hr : pairR env a1 a2 < 0.1
    · simp [hr]
    · simp [hr, addF, hk1, hk2]
  · intro hr
    constructor
    · simp [hr, addF, h, hne]
    · simp [hr, addF, h, hne, Vec3.add_neg_eq_sub]
      exact ⟨by ring, by ring, by ring⟩
  · simp [addF, h, hne, Vec3.add_sub_cancel_left', Vec3.neg_neg']
  · simp [addF, h, hne]
  · simp [addF, h, hne, Vec3.add_neg_eq_sub]
    exact ⟨by ring, by ring, by ring⟩
  · intro k hk1 hk2
    simp [addF, hk1, hk2]

theorem newton_third_law_witness :
    (pairStep env0 5 [] hPlus hMinus (fun _ => 0)) hPlus.id - (fun _ => (0 : Vec3)) hPlus.id
        = -((pairStep env0 5 [] hPlus hMinus (fun _ => 0)) hMinus.id
            - (fun _ => (0 : Vec3)) hMinus.id) :=
  (newton_third_law cfg1 env0 5 [] hPlus hMinus covB (fun _ => 0) (fun _ => 0) (by decide)).1

/-! ### C7: the Coulomb scenario -/

/-- C7 counterexample: two unbonded atoms with charges +1 and −1 at separation r = 1
(≥ 0.1).  The pairwise force magnitude the tick computes is not K × 1 × 1 / r²: the
Lennard-Jones term is also accumulated for this non-bonded pair (the temperature is
above the mean boiling point, so the intermolecular term is off). -/
theorem coulomb_scenario_counterexample :
    hPlus.charge = 1 ∧ hMinus.charge = -1 ∧
    isBondedPair [] hPlus.id hMinus.id = false ∧
    pairR env0 hPlus hMinus = 1 ∧
    pairMag env0 5 [] hPlus hMinus ≠ -(K_COULOMB / (1 * 1)) ∧
    pairMag env0 5 [] hPlus hMinus ≠ K_COULOMB / (1 * 1) := by decide

/-- C7 amended: the Coulomb term of the pairwise force is exactly
−K / r² for charges +1 / −1 — attractive, of magnitude K / r² — and the total pairwise
magnitude is that term plus the Lennard-Jones term and the conditional intermolecular
term. -/
theorem coulomb_term_amended (env : Env) (temp : ℚ) (bonds : List Bond) (a1 a2 : Atom)
    (hq1 : a1.charge = 1) (hq2 : a2.charge = -1) (hr : ¬ pairR env a1 a2 < 0.1) :
    coulMag a1 a2 (pairR env a1 a2)
        = -(K_COULOMB / (pairR env a1 a2 * pairR env a1 a2)) ∧
    coulMag a1 a2 (pairR env a1 a2) < 0 ∧
    pairMag env temp bonds a1 a2
        = ljMag a1 a2 (isBondedPair bonds a1.id a2.id) (pairR env a1 a2)
          + coulMag a1 a2 (pairR env a1 a2)
          + interMag temp a1 a2 (isBondedPair bonds a1.id a2.id) (pairR env a1 a2) := by
  have hr01 : (0.1 : ℚ) ≤ pairR env a1 a2 := not_lt.mp hr
  have hrpos : 0 < pairR env a1 a2 := lt_of_lt_of_le (by norm_num) hr01
  have hco : coulMag a1 a2 (pairR env a1 a2)
      = -(K_COULOMB / (pairR env a1 a2 * pairR env a1 a2)) := by
    unfold coulMag
    rw [hq1, hq2]
    norm_num
    ring
  refine ⟨hco, ?_, rfl⟩
  rw [hco]
  have : 0 < K_COULOMB / (pairR env a1 a2 * pairR env a1 a2) :=
    div_pos (by norm_num [K_COULOMB]) (mul_pos hrpos hrpos)
  linarith

/-! ### Fold lemmas about the bond pipeline -/

/-- A bond rejected by `evalBond` at every index never enters the survival filter's
output. -/
theorem bondFold_not_mem (cfg : VariantCfg) (env : Env) (temp : ℚ) (atoms : List Atom)
    (b : Bond) (hall : ∀ i, evalBond cfg env temp atoms i b = none) :
    ∀ (l : List (Nat × Bond)) (acc : List Bond × Forces), b ∉ acc.1 →
      b ∉ (l.foldl (bondStep cfg env temp atoms) acc).1 := by
  intro l
  induction l with
  | nil => intro acc h; simpa using h
  | cons ib t ih =>
      intro acc hacc
      rcases ib with ⟨i, x⟩
      rcases acc with ⟨kept, F⟩
      simp only [List.foldl_cons]
      apply ih
      cases hx : evalBond cfg env temp atoms i x with
      | none => simpa [bondStep, hx] using hacc
      | some upd =>
          simp only [bondStep, hx]
          intro hmem
          rcases List.mem_append.mp hmem with h | h
          · exact hacc h
          · rcases List.mem_singleton.mp h with rfl
            exact absurd (hall i) (by simp [hx])

/-- The survival filter's output is a sublist of the input bond list. -/
theorem bondFold_sublist (cfg : VariantCfg) (env : Env) (temp : ℚ) (atoms : List Atom) :
    ∀ (l : List (Nat × Bond)) (acc : List Bond × Forces),
      List.Sublist ((l.foldl (bondStep cfg env temp atoms) acc).1)
        (acc.1 ++ l.map Prod.snd) := by
  intro l
  induction l with
  | nil => intro acc; simp
  | cons ib t ih =>
      intro acc
      rcases ib with ⟨i, x⟩
      rcases acc with ⟨kept, F⟩
      simp only [List.foldl_cons, List.map_cons]
      cases hx : evalBond cfg env temp atoms i x with
      | none =>
          simp only [bondStep, hx]
          refine (ih (kept, F)).trans ?_
          have : List.Sublist ((kept : List Bond) ++ t.map Prod.snd)
              (kept ++ x :: t.map Prod.snd) :=
            List.Sublist.append_left (List.sublist_cons_self x _) kept
          exact this
      | some upd =>
          simp only [bondStep, hx]
          refine (ih (kept ++ [x], upd F)).trans ?_
          simp

/-- Every bond after a chemistry fold was already present or carries a fresh id, and
the fresh-id counter never decreases. -/
theorem chemPair_bond_cases (cfg : VariantCfg) (env : Env) (temp : ℚ)
    (s : List Atom × List Bond × Nat) (ij : Nat × Nat) :
    ((chemPair cfg env temp s ij).2.1 = s.2.1 ∧ (chemPair cfg env temp s ij).2.2 = s.2.2) ∨
    (∃ nb : Bond, nb.id = s.2.2 ∧ (chemPair cfg env temp s ij).2.1 = s.2.1 ++ [nb] ∧
      (chemPair cfg env temp s ij).2.2 = s.2.2 + 1) := by
  rcases s with ⟨atoms, bonds, nid⟩
  rcases ij with ⟨i, j⟩
  simp only [chemPair]
  split
  · split_ifs <;>
      first
        | exact Or.inl ⟨rfl, rfl⟩
        | exact Or.inr ⟨_, rfl, rfl, rfl⟩
  · exact Or.inl ⟨rfl, rfl⟩

theorem chemFold_bonds (cfg : VariantCfg) (env : Env) (temp : ℚ)
    (n0 : Nat) (B0 : List Bond) :
    ∀ (ps : List (Nat × Nat)) (s : List Atom × List Bond × Nat),
      (∀ x ∈ s.2.1, x ∈ B0 ∨ n0 ≤ x.id) → n0 ≤ s.2.2 →
      (∀ x ∈ (ps.foldl (chemPair cfg env temp) s).2.1, x ∈ B0 ∨ n0 ≤ x.id) ∧
      n0 ≤ (ps.foldl (chemPair cfg env temp) s).2.2 := by
  intro ps
  induction ps with
  | nil => intro s h1 h2; exact ⟨h1, h2⟩
  | cons ij t ih =>
      intro s h1 h2
      simp only [List.foldl_cons]
      rcases chemPair_bond_cases cfg env temp s ij with ⟨hb, hn⟩ | ⟨nb, hid, hb, hn⟩
      · exact ih _ (by rw [hb]; exact h1) (by rw [hn]; exact h2)
      · refine ih _ ?_ (by rw [hn]; omega)
        rw [hb]
        intro x hx
        rcases List.mem_append.mp hx with hx | hx
        · exact h1 x hx
        · rcases List.mem_singleton.mp hx with rfl
          right; omega

/-- One photon step can only remove bonds. -/
theorem photonStep_bonds_mem (env : Env) (atoms : List Atom) (dt : ℚ)
    (bonds : List Bond) (surv : List Photon) (F : Forces) (p : Photon) (x : Bond)
    (h : x ∈ (photonStep env atoms dt (bonds, surv, F) p).1) : x ∈ bonds := by
  simp only [photonStep] at h
  split at h
  · exact (List.mem_filter.mp h).1
  · split at h <;> simpa using h

/-- Bonds surviving the photon loop were present when it started. -/
theorem photonFold_bonds_mem (env : Env) (atoms : List Atom) (dt : ℚ) :
    ∀ (ps : List Photon) (acc : List Bond × List Photon × Forces) (x : Bond),
      x ∈ (ps.foldl (photonStep env atoms dt) acc).1 → x ∈ acc.1 := by
  intro ps
  induction ps with
  | nil => intro acc x h; simp_all
  | cons p t ih =>
      intro acc x h
      rcases acc with ⟨bonds, surv, F⟩
      have h' := ih _ x h
      exact photonStep_bonds_mem env atoms dt bonds surv F p x h'

theorem photonStep_bonds_sublist (env : Env) (atoms : List Atom) (dt : ℚ)
    (bonds : List Bond) (surv : List Photon) (F : Forces) (p : Photon) :
    List.Sublist ((photonStep env atoms dt (bonds, surv, F) p).1) bonds := by
  simp only [photonStep]
  split
  · exact List.filter_sublist _
  · split
    · exact List.Sublist.refl _
    · exact List.Sublist.refl _

theorem photonFold_bonds_sublist (env : Env) (atoms : List Atom) (dt : ℚ) :
    ∀ (ps : List Photon) (acc : List Bond × List Photon × Forces),
      List.Sublist ((ps.foldl (photonStep env atoms dt) acc).1) acc.1 := by
  intro ps
  induction ps with
  | nil => intro acc; exact List.Sublist.refl _
  | cons p t ih =>
      intro acc
      rcases acc with ⟨bonds, surv, F⟩
      simp only [List.foldl_cons]
      exact (ih _).trans (photonStep_bonds_sublist env atoms dt bonds surv F p)

/-! ### Photon-phase lemmas (C8) -/

theorem hitCheck_eq (env : Env) (atoms : List Atom) (pos : Vec3) (x b : Bond)
    (a1 a2 : Atom) (h : hitCheck env atoms pos x = some (b, a1, a2)) : x = b := by
  unfold hitCheck at h
  split at h
  · dsimp only at h
    split at h
    · injection h with h'
      exact congrArg Prod.fst h'
    · exact absurd h (by simp)
  · exact absurd h (by simp)

theorem firstHit_mem (env : Env) (atoms : List Atom) (pos : Vec3) (b : Bond)
    (a1 a2 : Atom) :
    ∀ (bonds : List Bond), firstHit env atoms bonds pos = some (b, a1, a2) → b ∈ bonds := by
  intro bonds
  induction bonds with
  | nil => intro h; simp [firstHit] at h
  | cons x t ih =>
      intro h
      unfold firstHit at h
      rw [List.findSome?_cons] at h
      cases hx : hitCheck env atoms pos x with
      | some r =>
          rw [hx] at h
          injection h with h'
          have hxb : x = b := hitCheck_eq env atoms pos x b a1 a2 (by rw [hx, h'])
          rw [← hxb]
          exact List.mem_cons_self x t
      | none =>
          rw [hx] at h
          exact List.mem_cons_of_mem x (ih h)

theorem filter_ne_id_length (b : Bond) :
    ∀ (l : List Bond), (l.map Bond.id).Nodup → b ∈ l →
      (l.filter (fun x => x.id ≠ b.id)).length + 1 = l.length := by
  intro l
  induction l with
  | nil => intro _ h; simp at h
  | cons x t ih =>
      intro hn hb
      rw [List.map_cons, List.nodup_cons] at hn
      by_cases hx : x.id = b.id
      · have hbt : ∀ y ∈ t, y.id ≠ b.id := by
          intro y hy hyb
          exact hn.1 (by rw [hx, ← hyb]; exact List.mem_map_of_mem _ hy)
        have hft : t.filter (fun y => y.id ≠ b.id) = t :=
          List.filter_eq_self.mpr (fun y hy => by simpa using hbt y hy)
        simp [List.filter_cons, hx, hft]
        intro a ha
        exact hbt a ha
      · have hbt : b ∈ t := by
          rcases List.mem_cons.mp hb with rfl | h
          · exact absurd rfl hx
          · exact h
        have := ih hn.2 hbt
        simp only [List.filter_cons]
        rw [if_pos (by simpa using hx)]
        simp only [List.length_cons]
        omega

theorem photonStep_surv_ids (env : Env) (atoms : List Atom) (dt : ℚ)
    (bonds : List Bond) (surv : List Photon) (F : Forces) (p : Photon) (x : Nat)
    (hx : x ∈ ((photonStep env atoms dt (bonds, surv, F) p).2.1.map Photon.id)) :
    x ∈ surv.map Photon.id ∨ x = p.id := by
  simp only [photonStep] at hx
  split at hx
  · exact Or.inl hx
  · split at hx
    · simp only [List.map_append, List.map_cons, List.map_nil, List.mem_append] at hx
      rcases hx with hx | hx
      · exact Or.inl hx
      · simp at hx
        exact Or.inr hx
    · exact Or.inl hx

theorem photonFold_surv_ids (env : Env) (atoms : List Atom) (dt : ℚ) :
    ∀ (ps : List Photon) (acc : List Bond × List Photon × Forces) (x : Nat),
      x ∈ ((ps.foldl (photonStep env atoms dt) acc).2.1.map Photon.id) →
      x ∈ acc.2.1.map Photon.id ∨ x ∈ ps.map Photon.id := by
  intro ps
  induction ps with
  | nil => intro acc x h; exact Or.inl h
  | cons p t ih =>
      intro acc x h
      rcases acc with ⟨bonds, surv, F⟩
      simp only [List.foldl_cons] at h
      rcases ih _ x h with h' | h'
      · rcases photonStep_surv_ids env atoms dt bonds surv F p x h' with h'' | h''
        · exact Or.inl h''
        · right; simp [h'']
      · right; simp [h']

theorem photonStep_hit (env : Env) (atoms : List Atom) (dt : ℚ) (bonds : List Bond)
    (surv : List Photon) (F : Forces) (p : Photon) (b : Bond) (a1 a2 : Atom)
    (hfh : firstHit env atoms bonds (p.position + (dt * 15) • p.velocity)
        = some (b, a1, a2)) :
    photonStep env atoms dt (bonds, surv, F) p
      = (bonds.filter (fun x => x.id ≠ b.id), surv,
         photonImpulse env a1 a2
           { p with position := p.position + (dt * 15) • p.velocity } F) := by
  simp only [photonStep]
  rw [hfh]

theorem photonStep_far (env : Env) (atoms : List Atom) (dt : ℚ) (bonds : List Bond)
    (surv : List Photon) (F : Forces) (p : Photon)
    (hfh : firstHit env atoms bonds (p.position + (dt * 15) • p.velocity) = none)
    (hfar : ¬ env.len (p.position + (dt * 15) • p.velocity) < 60) :
    photonStep env atoms dt (bonds, surv, F) p = (bonds, surv, F) := by
  simp only [photonStep]
  rw [hfh, if_neg hfar]

/-! ### C8: photon consumption -/

/-- C8: for the photon at position `k` of a tick's photon list, with `pre` the
bond/photon state after the preceding photons: if its advanced position strikes a
surviving bond (first within 0.8 of a bond midpoint), that bond and the photon are both
absent from the tick's output and the strike removes exactly one bond; and if it
strikes nothing and its advanced position is at distance ≥ 60 from the origin, the
photon is absent from the output. -/
theorem photon_consumption (env : Env) (atoms : List Atom) (dt : ℚ)
    (bonds : List Bond) (photons : List Photon) (F : Forces) (k : Nat) (p : Photon)
    (hk : photons[k]? = some p)
    (hB : (bonds.map Bond.id).Nodup)
    (hP : (photons.map Photon.id).Nodup) :
    (∀ b a1 a2,
      firstHit env atoms (photonPhase env atoms dt bonds (photons.take k) F).1
          (p.position + (dt * 15) • p.velocity) = some (b, a1, a2) →
      b ∉ (photonPhase env atoms dt bonds photons F).1 ∧
      p.id ∉ (photonPhase env atoms dt bonds photons F).2.1.map Photon.id ∧
      (photonStep env atoms dt (photonPhase env atoms dt bonds (photons.take k) F)
          p).1.length + 1
        = (photonPhase env atoms dt bonds (photons.take k) F).1.length) ∧
    (firstHit env atoms (photonPhase env atoms dt bonds (photons.take k) F).1
          (p.position + (dt * 15) • p.velocity) = none →
      ¬ env.len (p.position + (dt * 15) • p.velocity) < 60 →
      p.id ∉ (photonPhase env atoms dt bonds photons F).2.1.map Photon.id) := by
  have hklen : k < photons.length := by
    rcases List.getElem?_eq_some_iff.mp hk with ⟨h, _⟩
    exact h
  have hval : photons[k] = p := by
    rcases List.getElem?_eq_some_iff.mp hk with ⟨h, hv⟩
    exact hv
  have hsplit : photons = photons.take k ++ p :: photons.drop (k + 1) := by
    conv_lhs => rw [← List.take_append_drop k photons]
    rw [List.drop_eq_getElem_cons hklen, hval]
  have hfold : photonPhase env atoms dt bonds photons F
      = (photons.drop (k + 1)).foldl (photonStep env atoms dt)
          (photonStep env atoms dt (photonPhase env atoms dt bonds (photons.take k) F) p) := by
    unfold photonPhase
    conv_lhs => rw [hsplit]
    rw [List.foldl_append, List.foldl_cons]
  have hPsplit : ((photons.take k).map Photon.id
      ++ p.id :: (photons.drop (k + 1)).map Photon.id).Nodup := by
    have := hP
    rw [hsplit, List.map_append, List.map_cons] at this
    exact this
  rcases List.nodup_append.mp hPsplit with ⟨hn1, hn2, hdisj⟩
  have hp_take : p.id ∉ (photons.take k).map Photon.id :=
    fun hmem => hdisj hmem (List.mem_cons_self _ _)
  have hp_drop : p.id ∉ (photons.drop (k + 1)).map Photon.id :=
    (List.nodup_cons.mp hn2).1
  have hp_pre : p.id ∉ (photonPhase env atoms dt bonds (photons.take k) F).2.1.map
      Photon.id := by
    intro hmem
    rcases photonFold_surv_ids env atoms dt (photons.take k) (bonds, [], F) p.id hmem
      with h | h
    · simp at h
    · exact hp_take h
  have hpreSub : List.Sublist ((photonPhase env atoms dt bonds (photons.take k) F).1)
      bonds :=
    photonFold_bonds_sublist env atoms dt (photons.take k) (bonds, [], F)
  have hpreNodup : (((photonPhase env atoms dt bonds (photons.take k) F).1).map
      Bond.id).Nodup :=
    List.Nodup.sublist (List.Sublist.map Bond.id hpreSub) hB
  rcases hpreEq : photonPhase env atoms dt bonds (photons.take k) F
    with ⟨preB, preS, preF⟩
  rw [hpreEq] at hfold hp_pre hpreSub hpreNodup
  simp only at hp_pre hpreSub hpreNodup
  constructor
  · intro b a1 a2 hfh
    simp only at hfh
    have hstep := photonStep_hit env atoms dt preB preS preF p b a1 a2 hfh
    rw [hstep]
    refine ⟨?_, ?_, ?_⟩
    · intro hmem
      rw [hfold, hstep] at hmem
      have h1 := photonFold_bonds_mem env atoms dt _ _ b hmem
      simp only at h1
      rcases List.mem_filter.mp h1 with ⟨_, hcontra⟩
      simp at hcontra
    · intro hmem
      rw [hfold, hstep] at hmem
      rcases photonFold_surv_ids env atoms dt (photons.drop (k + 1)) _ p.id hmem
        with h | h
      · exact hp_pre h
      · exact hp_drop h
    · simp only
      exact filter_ne_id_length b preB hpreNodup (firstHit_mem env atoms _ b a1 a2 preB hfh)
  · intro hfh hfar
    simp only at hfh
    have hstep := photonStep_far env atoms dt preB preS preF p hfh hfar
    intro hmem
    rw [hfold, hstep] at hmem
    rcases photonFold_surv_ids env atoms dt (photons.drop (k + 1)) _ p.id hmem
      with h | h
    · exact hp_pre h
    · exact hp_drop h

theorem photon_consumption_witness :
    covB ∉ (photonPhase env0 [cAtom1, cAtom2] (1/15) [covB] [phot0] (fun _ => 0)).1 ∧
    phot0.id ∉ (photonPhase env0 [cAtom1, cAtom2] (1/15) [covB] [phot0]
        (fun _ => 0)).2.1.map Photon.id ∧
    (photonStep env0 [cAtom1, cAtom2] (1/15)
        (photonPhase env0 [cAtom1, cAtom2] (1/15) [covB] ([phot0].take 0)
          (fun _ => 0)) phot0).1.length + 1
      = (photonPhase env0 [cAtom1, cAtom2] (1/15) [covB] ([phot0].take 0)
          (fun _ => 0)).1.length :=
  (photon_consumption env0 [cAtom1, cAtom2] (1/15) [covB] [phot0] (fun _ => 0) 0 phot0
    (by decide) (by decide) (by decide)).1 covB cAtom1 cAtom2 (by decide)

/-! ### C2: mechanical snap -/

/-- The carbon bond with its rest length shrunk to 0.1: at separation 1.5 > 0.2 the
mechanical-snap condition holds. -/
def stretchedB : Bond := { covB with restLength := 0.1 }

def stretchedSt : SimulationState := { stC with bonds := [stretchedB], temperature := 0 }

/-- C2 counterexample: at `stretchedSt` the mechanical-snap condition holds for
`stretchedB` (separation 1.5 > 0.2 = effective rest length × break ratio, both
endpoints present), the survival filter drops it — yet the bond is still in the
committed bond list after the tick: a filter-only drop changes neither the
`activeBonds`-versus-`newBonds` length test, nor the photon count, nor
`structureChanged`, so the source does not commit and keeps the stale input bond
list. -/
theorem mechanical_snap_counterexample :
    effRest stretchedSt.temperature stretchedB * BOND_BREAK_LIMIT
        < env0.len (cAtom1.position - cAtom2.position) ∧
    findAtom stretchedSt.atoms stretchedB.atomA = some cAtom1 ∧
    findAtom stretchedSt.atoms stretchedB.atomB = some cAtom2 ∧
    (tickAB cfg1 env0 none stretchedSt).1 = [] ∧
    stretchedB ∈ (tick cfg1 env0 none stretchedSt 1 100 0.016).1.bonds := by decide

/-- C2 amended: for every bond whose endpoints exist, either variant's tick, every
vortex state, every cooldown, every frame delta and every random outcome: if the
separation the tick computes exceeds the effective rest length times the break ratio,
the bond is absent from the tick's working surviving-bond list (the `newBonds` list
the spring forces, chemistry and photons run against, and the one written on commit);
the committed bond list is that working list when the tick commits, and the unchanged
input list otherwise — so a filter-only drop reaches the committed state only in a
tick whose commit condition fires.  `hfresh` states the bond's id predates the
fresh-id counter, which is how distinctness of uuid-allocated ids is modelled. -/
theorem mechanical_snap (cfg : VariantCfg) (env : Env) (vp : Option Vec3)
    (st : SimulationState) (cool : ℚ) (nid : Nat) (delta : ℚ) (b : Bond) (a1 a2 : Atom)
    (hrun : st.isRunning = true)
    (h1 : findAtom st.atoms b.atomA = some a1)
    (h2 : findAtom st.atoms b.atomB = some a2)
    (hfresh : b.id < nid)
    (hsep : effRest st.temperature b * BOND_BREAK_LIMIT
        < env.len (a1.position - a2.position)) :
    b ∉ (tickPH cfg env vp st cool nid delta).1 ∧
    ((tick cfg env vp st cool nid delta).1.bonds = (tickPH cfg env vp st cool nid delta).1 ∨
     (tick cfg env vp st cool nid delta).1.bonds = st.bonds) := by
  constructor
  · intro hmem
    have hall : ∀ i, evalBond cfg env st.temperature st.atoms i b = none := by
      intro i
      unfold evalBond
      rw [h1, h2]
      simp only
      rw [if_pos hsep]
    have hactive : b ∉ (tickAB cfg env vp st).1 := by
      unfold tickAB
      exact bondFold_not_mem cfg env st.temperature st.atoms b hall _ _ (by simp)
    unfold tickPH at hmem
    have hchem := photonFold_bonds_mem env _ _ st.photons _ b hmem
    unfold tickCG chemGate at hchem
    by_cases hcool : cool - tickDt st delta ≤ 0
    · rw [if_pos hcool] at hchem
      simp only at hchem
      have hcf := chemFold_bonds cfg env st.temperature nid (tickAB cfg env vp st).1
        (pairIdx st.atoms.length) (st.atoms, (tickAB cfg env vp st).1, nid)
        (fun x hx => Or.inl hx) (le_refl nid)
      rcases hcf.1 b hchem with hx | hx
      · exact hactive hx
      · omega
    · rw [if_neg hcool] at hchem
      simp only at hchem
      exact hactive hchem
  · unfold tick
    rw [hrun]
    simp only [if_true]
    split
    · exact Or.inl rfl
    · exact Or.inr rfl

theorem mechanical_snap_witness :
    stretchedB ∉ (tickPH cfg1 env0 none stretchedSt 1 100 0.016).1 ∧
    ((tick cfg1 env0 none stretchedSt 1 100 0.016).1.bonds
        = (tickPH cfg1 env0 none stretchedSt 1 100 0.016).1 ∨
     (tick cfg1 env0 none stretchedSt 1 100 0.016).1.bonds = stretchedSt.bonds) :=
  mechanical_snap cfg1 env0 none stretchedSt 1 100 0.016 stretchedB cAtom1 cAtom2
    (by decide) (by decide) (by decide) (by decide) (by decide)

/-! ### Valence-invariant machinery (C1) -/

/-- The identity-and-kind signature of an atom list; charge and kinematic updates
leave it unchanged. -/
def sig (l : List Atom) : List (Nat × AtomType) := l.map (fun a => (a.id, a.ty))

theorem setCharge_sig : ∀ (l : List Atom) (i : Nat) (c : ℚ), sig (setCharge l i c) = sig l := by
  intro l
  induction l with
  | nil => intro i c; rfl
  | cons a t ih =>
      intro i c
      cases i with
      | zero => simp [setCharge, sig]
      | succ n =>
          cases h : t[n]? with
          | none => simp [setCharge, h]
          | some b =>
              have ht := ih n c
              simp only [setCharge, h] at ht
              simp [setCharge, h, sig, List.set_cons_succ]
              simpa [sig] using ht

theorem ValenceInv_of_sig (l l' : List Atom) (bonds : List Bond)
    (hs : sig l' = sig l) (h : ValenceInv l bonds) : ValenceInv l' bonds := by
  intro a ha
  have hmem : (a.id, a.ty) ∈ sig l' := List.mem_map_of_mem _ ha
  rw [hs] at hmem
  rcases List.mem_map.mp hmem with ⟨b, hb, hba⟩
  have hid : b.id = a.id := congrArg Prod.fst hba
  have hty : b.ty = a.ty := congrArg Prod.snd hba
  have hbb := h b hb
  rw [hid, hty] at hbb
  exact hbb

theorem bondCount_append_single (l : List Bond) (nb : Bond) (aid : Nat) :
    bondCount (l ++ [nb]) aid
      = bondCount l aid + (if nb.atomA = aid ∨ nb.atomB = aid then 1 else 0) := by
  unfold bondCount
  rw [List.filter_append]
  by_cases h : nb.atomA = aid ∨ nb.atomB = aid <;> simp [h]

theorem bondCount_mono (l1 l2 : List Bond) (aid : Nat) (h : List.Sublist l1 l2) :
    bondCount l1 aid ≤ bondCount l2 aid :=
  List.Sublist.length_le (List.Sublist.filter _ h)

/-- Appending one bond between two atoms that both still have free valence keeps the
valence invariant (distinct ids let the saturation guard transfer to every alias). -/
theorem valence_extend (atoms : List Atom) (bonds : List Bond) (nb : Bond)
    (a1 a2 : Atom) (hm1 : a1 ∈ atoms) (hm2 : a2 ∈ atoms)
    (hA : nb.atomA = a1.id) (hB : nb.atomB = a2.id)
    (hnodup : (atoms.map Atom.id).Nodup)
    (hc1 : bondCount bonds a1.id < (ATOM_CONFIGS a1.ty).maxBonds)
    (hc2 : bondCount bonds a2.id < (ATOM_CONFIGS a2.ty).maxBonds)
    (hinv : ValenceInv atoms bonds) :
    ValenceInv atoms (bonds ++ [nb]) := by
  intro a ha
  rw [bondCount_append_single]
  by_cases hi : nb.atomA = a.id ∨ nb.atomB = a.id
  · rw [if_pos hi]
    rcases hi with hi | hi
    · have ha1 : a = a1 := by
        apply List.inj_on_of_nodup_map hnodup ha hm1
        rw [← hi, hA]
      subst ha1
      rw [← hi, hA] at hc1 ⊢
      omega
    · have ha2 : a = a2 := by
        apply List.inj_on_of_nodup_map hnodup ha hm2
        rw [← hi, hB]
      subst ha2
      rw [← hi, hB] at hc2 ⊢
      omega
  · rw [if_neg hi]
    simpa using hinv a ha

/-- One chemistry-scan pair preserves the atom signature and the valence invariant. -/
theorem chemPair_valence (cfg : VariantCfg) (env : Env) (temp : ℚ)
    (s : List Atom × List Bond × Nat) (ij : Nat × Nat)
    (hnodup : (s.1.map Atom.id).Nodup) (hinv : ValenceInv s.1 s.2.1) :
    sig (chemPair cfg env temp s ij).1 = sig s.1 ∧
    ValenceInv (chemPair cfg env temp s ij).1 (chemPair cfg env temp s ij).2.1 := by
  rcases s with ⟨atoms, bonds, nid⟩
  rcases ij with ⟨i, j⟩
  cases hia : atoms[i]? with
  | none => simp only [chemPair]; rw [hia]; exact ⟨rfl, hinv⟩
  | some a1 =>
  cases hja : atoms[j]? with
  | none => simp only [chemPair]; rw [hia, hja]; exact ⟨rfl, hinv⟩
  | some a2 =>
  have hm1 : a1 ∈ atoms := List.getElem?_mem hia
  have hm2 : a2 ∈ atoms := List.getElem?_mem hja
  simp only [chemPair]
  rw [hia, hja]
  simp only
  by_cases hg1 : (ATOM_CONFIGS a1.ty).maxBonds = 0 ∨ (ATOM_CONFIGS a2.ty).maxBonds = 0
  · rw [if_pos hg1]; exact ⟨rfl, hinv⟩
  rw [if_neg hg1]
  by_cases hg2 : (ATOM_CONFIGS a1.ty).maxBonds ≤ bondCount bonds a1.id ∨
      (ATOM_CONFIGS a2.ty).maxBonds ≤ bondCount bonds a2.id
  · rw [if_pos hg2]; exact ⟨rfl, hinv⟩
  rw [if_neg hg2]
  push_neg at hg2
  by_cases hg3 : ¬ isBondedPair bonds a1.id a2.id = true ∧
      env.len (a1.position - a2.position) < (a1.radius + a2.radius) * BOND_FORM_RADIUS
  · rw [if_pos hg3]
    have hext : ValenceInv atoms (bonds ++
        [⟨nid, a1.id, a2.id, BOND_STRENGTH_IONIC,
          (a1.radius + a2.radius) * cfg.ionicRestMult, 1, BondType.ionic⟩]) :=
      valence_extend atoms bonds _ a1 a2 hm1 hm2 rfl rfl hnodup hg2.1 hg2.2 hinv
    have hextc : ValenceInv atoms (bonds ++
        [⟨nid, a1.id, a2.id, BOND_STRENGTH_COVALENT,
          (a1.radius + a2.radius) * cfg.covRestMult, 1, BondType.covalent⟩]) :=
      valence_extend atoms bonds _ a1 a2 hm1 hm2 rfl rfl hnodup hg2.1 hg2.2 hinv
    by_cases hg4 : (decide (1.7 < |(ATOM_CONFIGS a1.ty).electronegativity
        - (ATOM_CONFIGS a2.ty).electronegativity|) : Bool) = true ∧
        temp < (a1.meltingPoint + a2.meltingPoint) / 2
    · rw [if_pos hg4]
      refine ⟨by rw [setCharge_sig, setCharge_sig], ?_⟩
      refine ValenceInv_of_sig atoms _ _ (by rw [setCharge_sig, setCharge_sig]) ?_
      exact hext
    · rw [if_neg hg4]
      by_cases hg5 : ¬ (decide (1.7 < |(ATOM_CONFIGS a1.ty).electronegativity
          - (ATOM_CONFIGS a2.ty).electronegativity|) : Bool) = true ∧
          temp < (a1.meltingPoint + a2.meltingPoint) / 2 * 1.5
      · rw [if_pos hg5]
        exact ⟨rfl, hextc⟩
      · rw [if_neg hg5]
        exact ⟨rfl, hinv⟩
  · rw [if_neg hg3]; exact ⟨rfl, hinv⟩

theorem map_id_of_sig (l l' : List Atom) (h : sig l' = sig l) :
    l'.map Atom.id = l.map Atom.id := by
  have := congrArg (List.map Prod.fst) h
  simpa [sig, List.map_map, Function.comp] using this

theorem chemFold_valence (cfg : VariantCfg) (env : Env) (temp : ℚ) :
    ∀ (ps : List (Nat × Nat)) (s : List Atom × List Bond × Nat),
      (s.1.map Atom.id).Nodup → ValenceInv s.1 s.2.1 →
      sig (ps.foldl (chemPair cfg env temp) s).1 = sig s.1 ∧
      ValenceInv (ps.foldl (chemPair cfg env temp) s).1
        (ps.foldl (chemPair cfg env temp) s).2.1 := by
  intro ps
  induction ps with
  | nil => intro s hn hi; exact ⟨rfl, hi⟩
  | cons ij t ih =>
      intro s hn hi
      simp only [List.foldl_cons]
      have hstep := chemPair_valence cfg env temp s ij hn hi
      have hn' : ((chemPair cfg env temp s ij).1.map Atom.id).Nodup := by
        rw [map_id_of_sig _ _ hstep.1]; exact hn
      have hrest := ih (chemPair cfg env temp s ij) hn' hstep.2
      exact ⟨hrest.1.trans hstep.1, hrest.2⟩

theorem sig_integrate (env : Env) (temp dt : ℚ) (F : Forces) (atoms : List Atom) :
    sig (integrate env temp dt F atoms) = sig atoms := by
  unfold integrate sig
  rw [List.map_map]
  have h1 : ((fun a => (a.id, a.ty))
        ∘ fun ia : Nat × Atom => integrateAtom env temp dt F ia.1 ia.2)
      = fun ia : Nat × Atom => (ia.2.id, ia.2.ty) := by
    funext ia; rfl
  have h2 : (fun ia : Nat × Atom => (ia.2.id, ia.2.ty))
      = (fun a : Atom => (a.id, a.ty)) ∘ Prod.snd := rfl
  rw [h1, h2, ← List.map_map, List.enum_map_snd]

theorem bondPhase_sublist (cfg : VariantCfg) (env : Env) (temp : ℚ)
    (atoms : List Atom) (bonds : List Bond) (F : Forces) :
    List.Sublist ((bondPhase cfg env temp atoms bonds F).1) bonds := by
  have h := bondFold_sublist cfg env temp atoms bonds.enum ([], F)
  simpa [List.enum_map_snd] using h

/-! ### C1: the valence invariant -/

/-- C1 counterexample: spawning the `salt` molecule template yields an atom
(a sodium, valence capacity 1) with three incident ionic bonds, so the claimed
"valence invariant at all times, including after external spawn commands" fails. -/
theorem valence_spawn_counterexample :
    ¬ ValenceInv (createMolecule env0 saltTemplate 0 0).1
        (createMolecule env0 saltTemplate 0 0).2 ∧
    bondCount (createMolecule env0 saltTemplate 0 0).2 0 = 3 ∧
    (ATOM_CONFIGS AtomType.Na).maxBonds = 1 ∧
    (sig (createMolecule env0 saltTemplate 0 0).1)[0]? = some (0, AtomType.Na) := by
  decide

/-- C1 amended: the per-tick step (either variant) preserves the valence invariant:
bond survival and photon strikes only remove bonds, and the chemistry engine forms a
bond only when both endpoint atoms are strictly below their valence capacity against
the current bond list.  (External spawns can still violate the invariant, see the
counterexample.) -/
theorem valence_preserved_by_tick (cfg : VariantCfg) (env : Env) (vp : Option Vec3)
    (st : SimulationState) (cool : ℚ) (nid : Nat) (delta : ℚ)
    (hnodup : (st.atoms.map Atom.id).Nodup)
    (hinv : ValenceInv st.atoms st.bonds) :
    ValenceInv (tick cfg env vp st cool nid delta).1.atoms
      (tick cfg env vp st cool nid delta).1.bonds := by
  have hactive : ValenceInv st.atoms (tickAB cfg env vp st).1 := by
    intro a ha
    exact le_trans
      (bondCount_mono _ _ _ (bondPhase_sublist cfg env st.temperature st.atoms st.bonds
        (forcePhase env vp st.temperature st.magneticField st.atoms st.bonds)))
      (hinv a ha)
  have hcg : sig (tickCG cfg env vp st cool nid delta).1.1 = sig st.atoms ∧
      ValenceInv (tickCG cfg env vp st cool nid delta).1.1
        (tickCG cfg env vp st cool nid delta).1.2.1 := by
    unfold tickCG chemGate
    by_cases hcool : cool - tickDt st delta ≤ 0
    · rw [if_pos hcool]
      simp only
      exact chemFold_valence cfg env st.temperature (pairIdx st.atoms.length)
        (st.atoms, (tickAB cfg env vp st).1, nid) hnodup hactive
    · rw [if_neg hcool]
      exact ⟨rfl, hactive⟩
  have hph : ValenceInv (tickCG cfg env vp st cool nid delta).1.1
      (tickPH cfg env vp st cool nid delta).1 := by
    intro a ha
    refine le_trans (bondCount_mono _ _ _ ?_) (hcg.2 a ha)
    unfold tickPH
    exact photonFold_bonds_sublist env _ (tickDt st delta) st.photons
      ((tickCG cfg env vp st cool nid delta).1.2.1, [],
       (tickAB cfg env vp st).2)
  have hsig2 : sig (integrate env st.temperature (tickDt st delta)
      (tickPH cfg env vp st cool nid delta).2.2
      (tickCG cfg env vp st cool nid delta).1.1) = sig st.atoms :=
    (sig_integrate env st.temperature (tickDt st delta) _ _).trans hcg.1
  unfold tick
  by_cases hrun : st.isRunning
  case neg =>
    simp only [hrun]
    simpa using hinv
  case pos =>
    rw [hrun]
    simp only [if_true]
    split
    · exact ValenceInv_of_sig (tickCG cfg env vp st cool nid delta).1.1 _ _
        (sig_integrate env st.temperature (tickDt st delta) _ _) hph
    · exact ValenceInv_of_sig st.atoms _ _ hsig2 hinv

theorem valence_preserved_by_tick_witness :
    ValenceInv (tick cfg1 env0 none stC 1 100 0.016).1.atoms
      (tick cfg1 env0 none stC 1 100 0.016).1.bonds :=
  valence_preserved_by_tick cfg1 env0 none stC 1 100 0.016 (by decide) (by decide)

/-! ### C5: ionic formation -/

/-- Evaluation of one chemistry-scan pair when every ionic-formation guard passes:
the pair's atoms get charges +1 (lower electronegativity, the donor) and −1, and a
single ionic order-1 bond with the fresh id is appended. -/
theorem chemPair_ionic (cfg : VariantCfg) (env : Env) (temp : ℚ)
    (atoms : List Atom) (bonds : List Bond) (nid i j : Nat) (a1 a2 : Atom)
    (h1 : atoms[i]? = some a1) (h2 : atoms[j]? = some a2)
    (hmaxA : ¬ (ATOM_CONFIGS a1.ty).maxBonds = 0)
    (hmaxB : ¬ (ATOM_CONFIGS a2.ty).maxBonds = 0)
    (hfreeA : ¬ (ATOM_CONFIGS a1.ty).maxBonds ≤ bondCount bonds a1.id)
    (hfreeB : ¬ (ATOM_CONFIGS a2.ty).maxBonds ≤ bondCount bonds a2.id)
    (hnb : isBondedPair bonds a1.id a2.id = false)
    (hdist : env.len (a1.position - a2.position) < (a1.radius + a2.radius) * BOND_FORM_RADIUS)
    (hen : 1.7 < |(ATOM_CONFIGS a1.ty).electronegativity
        - (ATOM_CONFIGS a2.ty).electronegativity|)
    (htemp : temp < (a1.meltingPoint + a2.meltingPoint) / 2) :
    chemPair cfg env temp (atoms, bonds, nid) (i, j)
      = ((if (ATOM_CONFIGS a1.ty).electronegativity
            < (ATOM_CONFIGS a2.ty).electronegativity
          then setCharge (setCharge atoms i 1) j (-1)
          else setCharge (setCharge atoms j 1) i (-1)),
         bonds ++ [⟨nid, a1.id, a2.id, BOND_STRENGTH_IONIC,
           (a1.radius + a2.radius) * cfg.ionicRestMult, 1, BondType.ionic⟩], nid + 1) := by
  simp only [chemPair]
  rw [h1, h2]
  simp only
  rw [if_neg (not_or.mpr ⟨hmaxA, hmaxB⟩)]
  rw [if_neg (not_or.mpr ⟨hfreeA, hfreeB⟩)]
  rw [if_pos ⟨by simp [hnb], hdist⟩]
  rw [if_pos ⟨by simpa using hen, htemp⟩]
  by_cases hAB : (ATOM_CONFIGS a1.ty).electronegativity
      < (ATOM_CONFIGS a2.ty).electronegativity
  · simp [hAB]
  · simp [hAB]

/-- C5 counterexample: in the three-atom row Cl–Na–Cl, the pair (Na, far Cl) satisfies
every hypothesis of the claim — unbonded, within formation radius, ΔEN = 2.23 > 1.7,
temperature 1 below the mean melting threshold 2.7, both with free valence and
capacity 1 — yet after one chemistry firing no bond exists between them: the earlier
pair (near Cl, Na) consumed the sodium's only valence slot during the same firing. -/
theorem ionic_formation_counterexample :
    isBondedPair [] naB.id clB.id = false ∧
    env0.len (naB.position - clB.position) < (naB.radius + clB.radius) * BOND_FORM_RADIUS ∧
    1.7 < |(ATOM_CONFIGS naB.ty).electronegativity
        - (ATOM_CONFIGS clB.ty).electronegativity| ∧
    (1 : ℚ) < (naB.meltingPoint + clB.meltingPoint) / 2 ∧
    bondCount [] naB.id = 0 ∧ bondCount [] clB.id = 0 ∧
    (ATOM_CONFIGS naB.ty).maxBonds = 1 ∧ (ATOM_CONFIGS clB.ty).maxBonds = 1 ∧
    ((chemPhase cfg1 env0 1 [clA, naB, clB] [] 100).2.1.filter
        (fun b => linksPair b naB.id clB.id)).length = 0 := by decide

/-- C5 amended: in a state containing exactly the two atoms, with the pair unbonded,
within formation radius, ΔEN > 1.7, temperature below the pair's mean melting
threshold, and both atoms with free valence and non-zero capacity, one chemistry firing
creates exactly one bond between them, it is ionic of order 1, and the charges become
+1 for the lower-electronegativity atom and −1 for the other. -/
theorem ionic_formation_two_atoms (cfg : VariantCfg) (env : Env) (temp : ℚ)
    (a1 a2 : Atom) (bonds : List Bond) (nid : Nat)
    (hmaxA : ¬ (ATOM_CONFIGS a1.ty).maxBonds = 0)
    (hmaxB : ¬ (ATOM_CONFIGS a2.ty).maxBonds = 0)
    (hfreeA : ¬ (ATOM_CONFIGS a1.ty).maxBonds ≤ bondCount bonds a1.id)
    (hfreeB : ¬ (ATOM_CONFIGS a2.ty).maxBonds ≤ bondCount bonds a2.id)
    (hnb : isBondedPair bonds a1.id a2.id = false)
    (hdist : env.len (a1.position - a2.position) < (a1.radius + a2.radius) * BOND_FORM_RADIUS)
    (hen : 1.7 < |(ATOM_CONFIGS a1.ty).electronegativity
        - (ATOM_CONFIGS a2.ty).electronegativity|)
    (htemp : temp < (a1.meltingPoint + a2.meltingPoint) / 2) :
    ((chemPhase cfg env temp [a1, a2] bonds nid).2.1.filter
        (fun b => linksPair b a1.id a2.id)).length = 1 ∧
    (∀ b ∈ (chemPhase cfg env temp [a1, a2] bonds nid).2.1,
        linksPair b a1.id a2.id → b.ty = BondType.ionic ∧ b.order = 1) ∧
    (chemPhase cfg env temp [a1, a2] bonds nid).1.map Atom.charge
      = (if (ATOM_CONFIGS a1.ty).electronegativity
            < (ATOM_CONFIGS a2.ty).electronegativity
         then [1, -1] else [-1, 1]) := by
  have hp : pairIdx ([a1, a2] : List Atom).length = [(0, 1)] := rfl
  have h1 : ([a1, a2] : List Atom)[0]? = some a1 := rfl
  have h2 : ([a1, a2] : List Atom)[1]? = some a2 := rfl
  have hstep := chemPair_ionic cfg env temp [a1, a2] bonds nid 0 1 a1 a2 h1 h2
    hmaxA hmaxB hfreeA hfreeB hnb hdist hen htemp
  have hphase : chemPhase cfg env temp [a1, a2] bonds nid
      = chemPair cfg env temp ([a1, a2], bonds, nid) (0, 1) := by
    unfold chemPhase
    rw [hp]
    simp
  rw [hphase, hstep]
  have hfilter : bonds.filter (fun b => linksPair b a1.id a2.id) = [] := by
    rw [List.filter_eq_nil_iff]
    intro b hb
    have := List.any_eq_false.mp (by simpa [isBondedPair] using hnb) b hb
    simpa [linksPair] using this
  refine ⟨?_, ?_, ?_⟩
  · rw [List.filter_append, hfilter]
    simp [linksPair]
  · intro b hb hlink
    rcases List.mem_append.mp hb with hb | hb
    · exfalso
      have := List.any_eq_false.mp (by simpa [isBondedPair] using hnb) b hb
      exact this (by simpa [linksPair] using hlink)
    · rcases List.mem_singleton.mp hb with rfl
      exact ⟨rfl, rfl⟩
  · by_cases hAB : (ATOM_CONFIGS a1.ty).electronegativity
        < (ATOM_CONFIGS a2.ty).electronegativity
    · simp [hAB, setCharge]
    · simp [hAB, setCharge]

theorem ionic_formation_two_atoms_witness :
    ((chemPhase cfg1 env0 1 [na0, cl0] [] 10).2.1.filter
        (fun b => linksPair b na0.id cl0.id)).length = 1 ∧
    (∀ b ∈ (chemPhase cfg1 env0 1 [na0, cl0] [] 10).2.1,
        linksPair b na0.id cl0.id → b.ty = BondType.ionic ∧ b.order = 1) ∧
    (chemPhase cfg1 env0 1 [na0, cl0] [] 10).1.map Atom.charge
      = (if (ATOM_CONFIGS na0.ty).electronegativity
            < (ATOM_CONFIGS cl0.ty).electronegativity
         then [1, -1] else [-1, 1]) :=
  ionic_formation_two_atoms cfg1 env0 1 na0 cl0 [] 10 (by decide) (by decide)
    (by decide) (by decide) (by decide) (by decide) (by decide) (by decide)

/-! ### C4: the two per-tick variants diverge -/

/-- A photon far out of bounds (advanced position stays at distance 60 ≥ 60 from the
origin, far from every bond midpoint): it is pruned, so the photon count changes and
the tick's commit condition fires in both variants. -/
def farPhot : Photon := { id := 60, position := ⟨0, 60, 0⟩, velocity := 0, energy := 1 }

/-- The carbon-bond state plus the out-of-bounds photon, so the dissociation
difference reaches the committed state. -/
def stP : SimulationState := { stC with photons := [farPhot] }

/-- An eligible unbonded Na–Cl pair with the chemistry cooldown about to fire. -/
def stI : SimulationState :=
  { atoms := [na0, cl0], bonds := [], photons := [], temperature := 1,
    magneticField := 0, isRunning := true, timeScale := 1, showFieldVectors := false }

/-- An eligible unbonded carbon pair with the chemistry cooldown about to fire. -/
def stCov : SimulationState := { stI with atoms := [cAtom1, cAtom2], temperature := 10 }

/-- C4: concrete simulation states on which the two per-tick implementations produce
different committed results.  At `stP` the carbon–carbon covalent bond at temperature
10 is removed by the first variant's thermal-dissociation rule (thermal energy
1500 > 0.8 × bond energy 960, roll 0.001 < probability 0.027) but kept by the second
variant's rule (not ionic, temperature ≤ 20), and the pruned out-of-bounds photon
makes both variants commit, so the committed bond lists differ.  At `stI` / `stCov`
the chemistry engines fire and commit bonds with different rest lengths: ionic
0.75 vs 1.0 and covalent 0.75 vs 0.9 of the radius sum. -/
theorem variant_divergence :
    (tick1 env0 none stP 1 100 0.016).1.bonds = [] ∧
    (tick2 env0 stP 1 100 0.016).1.bonds = [covB] ∧
    (tick1 env0 none stI 0.01 100 0.016).1.bonds.map Bond.restLength
        = [(na0.radius + cl0.radius) * 0.75] ∧
    (tick2 env0 stI 0.01 100 0.016).1.bonds.map Bond.restLength
        = [(na0.radius + cl0.radius) * 1] ∧
    (tick1 env0 none stCov 0.01 100 0.016).1.bonds.map Bond.restLength
        = [(cAtom1.radius + cAtom2.radius) * 0.75] ∧
    (tick2 env0 stCov 0.01 100 0.016).1.bonds.map Bond.restLength
        = [(cAtom1.radius + cAtom2.radius) * 0.9] ∧
    (tick1 env0 none stI 0.01 100 0.016).1.bonds.map Bond.ty = [BondType.ionic] ∧
    (tick1 env0 none stCov 0.01 100 0.016).1.bonds.map Bond.ty
        = [BondType.covalent] := by decide

/-! ### C3: the thermal-dissociation rule -/

/-- The thermal-dissociation rule exactly as the claim states it (used only to compare
the implementations against the claim): remove iff thermal energy (temp × 150) exceeds
0.8 × bond energy (strength × order) and the roll is below the excess × 0.00005. -/
@[reducible] def claimedThermalRemoval (env : Env) (temp : ℚ) (i : Nat) (b : Bond) : Prop :=
  b.strength * (b.order : ℚ) * 0.8 < temp * 150 ∧
  env.bondRollA i < (temp * 150 - b.strength * (b.order : ℚ) * 0.8) * 0.00005

/-- C3 counterexample: a covalent bond at temperature 10 for which the claimed rule
fires (thermal energy 1500 > 960 = 0.8 × bond energy, and the roll 0.001 is below the
claimed probability 0.027), yet the second per-tick variant — one of the two loops the
claim quantifies over — keeps the bond; the first variant removes it at the same draw. -/
theorem thermal_dissociation_counterexample :
    claimedThermalRemoval env0 10 0 covB ∧
    (evalBond cfg2 env0 10 [cAtom1, cAtom2] 0 covB).isSome = true ∧
    (evalBond cfg1 env0 10 [cAtom1, cAtom2] 0 covB).isSome = false := by decide

/-- C3 amended: in the first variant, for a bond whose endpoints exist and which passes
the mechanical-snap check, removal happens exactly under the claimed rule: thermal
energy = temp × 150, bond energy = strength × order, removal iff the thermal energy
exceeds 0.8 × bond energy and the roll is below (excess) × 0.00005.  (The second
variant uses a different rule, see the counterexample.) -/
theorem thermal_dissociation_rule_v1 (env : Env) (temp : ℚ) (atoms : List Atom)
    (i : Nat) (b : Bond) (a1 a2 : Atom)
    (h1 : findAtom atoms b.atomA = some a1) (h2 : findAtom atoms b.atomB = some a2)
    (hmech : ¬ effRest temp b * BOND_BREAK_LIMIT < env.len (a1.position - a2.position)) :
    (evalBond cfg1 env temp atoms i b = none ↔ claimedThermalRemoval env temp i b) := by
  unfold evalBond
  rw [h1, h2]
  simp only [hmech, if_false]
  unfold cfg1 thermalBreak1 claimedThermalRemoval
  by_cases hc : b.strength * (b.order : ℚ) * 0.8 < temp * 150
  · by_cases hroll : env.bondRollA i < (temp * 150 - b.strength * (b.order : ℚ) * 0.8) * 0.00005
    · simp [hc, hroll]
    · simp [hc, hroll]
  · simp [hc]

theorem thermal_dissociation_rule_v1_witness :
    (evalBond cfg1 env0 10 [cAtom1, cAtom2] 0 covB = none ↔
      claimedThermalRemoval env0 10 0 covB) :=
  thermal_dissociation_rule_v1 env0 10 [cAtom1, cAtom2] 0 covB cAtom1 cAtom2
    (by decide) (by decide) (by decide)

theorem coulomb_term_amended_witness :
    coulMag hPlus hMinus (pairR env0 hPlus hMinus)
        = -(K_COULOMB / (pairR env0 hPlus hMinus * pairR env0 hPlus hMinus)) ∧
    coulMag hPlus hMinus (pairR env0 hPlus hMinus) < 0 ∧
    pairMag env0 5 [] hPlus hMinus
        = ljMag hPlus hMinus (isBondedPair [] hPlus.id hMinus.id) (pairR env0 hPlus hMinus)
          + coulMag hPlus hMinus (pairR env0 hPlus hMinus)
          + interMag 5 hPlus hMinus (isBondedPair [] hPlus.id hMinus.id)
              (pairR env0 hPlus hMinus) :=
  coulomb_term_amended env0 5 [] hPlus hMinus rfl rfl (by decide)

end QM
